import Mathlib

/-!
# vulcan-report: validation, severity ranking, score aggregation and codec

A shallow embedding of `report.go` and `utils.go` of the `report` package, followed by
theorems about `ValidateReport`, `ValidateVulnerability`, `RankSeverity`, `ScoreSeverity`,
`SecurityStatus`, `AggregateScore`, `AddVulnerabilities`, `MarshalJSONTimeAsString` and
`UnmarshalJSONTimeAsString`.

Conventions of the embedding:

* a Go `error` result is an `Error`, that is an `Option String`: `none` is the `nil` error and
  `some msg` is `errors.New(msg)`;
* a Go slice is a `List` (the `nil` slice and the empty slice are both `[]`);
* a Go `string` is a `String`, a sequence of Unicode characters: the strings that are not
  valid UTF-8 are not represented;
* a `float32` is its IEEE 754 binary32 bit pattern, split in sign, biased exponent and
  mantissa; only comparisons of scores occur in the package, no arithmetic; an untyped
  constant such as `3.9` used as a `float32` is the binary32 value nearest to it;
* `time.Time` is the record of its three fields, which is what `==` compares;
* `sort.Sort` of the standard library is a parameter (`SortAlgorithm`) that carries the
  documented contract of the library function; `goInsertionSort` is the instance that the
  library runs on short slices;
* a function that writes through a slice argument or a pointer receiver returns the new
  contents next to its result;
* `Time.Format` and `time.Parse` are modelled from the library source for the layout of the
  package; the offsets of the locations are a parameter `zone`;
* `json.Marshal` and `json.Unmarshal` are modelled at the level of the members of the JSON
  object (`Document`, `Input`, `Members`), not of its bytes; no theorem relies on what
  `json.Unmarshal` makes of the bytes that `json.Marshal` wrote.
-/

namespace VulcanReport

/-! ## float32 -/

/-- An IEEE 754 binary32 value, the Go type `float32`, as the three fields of its bit
pattern: sign bit, 8-bit biased exponent, 23-bit mantissa. -/
structure Float32 where
  sign : Bool
  exponent : Fin 256
  mantissa : Fin 8388608
  deriving DecidableEq

namespace Float32

/-- Not-a-number: all exponent bits set and a non-zero mantissa. -/
def isNaN (x : Float32) : Bool :=
  x.exponent.val == 255 && x.mantissa.val != 0

/-- Magnitude of the bit pattern without its sign bit. On values that are not NaN the
IEEE order of two values of the same sign is the order of these magnitudes (subnormals,
zeros and infinities included). -/
def magnitude (x : Float32) : Nat :=
  x.exponent.val * 8388608 + x.mantissa.val

/-- Sign-magnitude key of a value: the IEEE order of two values that are not NaN is the
order of their keys; `-0` and `+0` both have key `0`. -/
def key (x : Float32) : Int :=
  if x.sign then - (x.magnitude : Int) else (x.magnitude : Int)

/-- Go `x <= y` on `float32`: false as soon as one operand is NaN. -/
def le (x y : Float32) : Bool :=
  !x.isNaN && !y.isNaN && decide (x.key ≤ y.key)

/-- Go `x < y` on `float32`: false as soon as one operand is NaN. -/
def lt (x y : Float32) : Bool :=
  !x.isNaN && !y.isNaN && decide (x.key < y.key)

/-- Go `x > y` on `float32`. -/
def gt (x y : Float32) : Bool := lt y x

/-- Go `x >= y` on `float32`. -/
def ge (x y : Float32) : Bool := le y x

/-- The value `+0`, which is `float32(0)`. -/
def zero : Float32 := ⟨false, 0, 0⟩

/-- The number denoted by a value, without its sign, in units of `2^(-150)`: twice the
mantissa for a zero or a subnormal (`mantissa * 2^(-149)`), and
`(2^23 + mantissa) * 2^exponent` for a normal value
(`(1 + mantissa / 2^23) * 2^(exponent - 127)`). -/
def scaled (x : Float32) : Nat :=
  if x.exponent.val = 0 then 2 * x.mantissa.val
  else (8388608 + x.mantissa.val) * 2 ^ x.exponent.val

/-- The rational number denoted by a finite value. (The same formula sends an infinity to
`2^128` with its sign, which is beyond every finite value.) -/
def toRat (x : Float32) : ℚ :=
  if x.sign then - ((x.scaled : ℚ) / 2 ^ 150) else (x.scaled : ℚ) / 2 ^ 150

end Float32

/-! ## Data model (report.go) -/

/-- The Go type `time.Time`: wall-clock word, extended seconds/monotonic word and location
pointer (`none` is the `nil` pointer). `==` on two times compares these three fields. -/
structure Time where
  wall : Nat
  ext : Int
  loc : Option Nat
  deriving DecidableEq

/-- The zero value `time.Time{}`. -/
def Time.zero : Time := ⟨0, 0, none⟩

/-- Attachment found when running the check. -/
structure Attachment where
  Name : String
  ContentType : String
  Data : List (Fin 256)
  deriving DecidableEq

/-- ResourcesGroup: a self-defined table for resources sharing the same attributes; a row
is a `map[string]string`, kept as its list of key/value pairs. -/
structure ResourcesGroup where
  Name : String
  Header : List String
  Rows : List (List (String × String))
  deriving DecidableEq

/-- Vulnerability represents a single security vulnerability found while running a check. -/
structure Vulnerability where
  ID : String
  Summary : String
  Score : Float32
  CWEID : Nat
  Description : String
  Details : String
  ImpactDetails : String
  Recommendations : List String
  References : List String
  Resources : List ResourcesGroup
  Attachments : List Attachment
  Vulnerabilities : List Vulnerability

/-- ResultData contains the data regarding the result of the execution of a check. -/
structure ResultData where
  Vulnerabilities : List Vulnerability
  Data : List (Fin 256)
  Notes : String
  Error : String
  NotApplicable : Bool

/-- CheckData defines the data about the execution of the check that generated the report. -/
structure CheckData where
  CheckID : String
  ChecktypeName : String
  ChecktypeVersion : String
  Status : String
  Target : String
  Options : String
  Tag : String
  StartTime : Time
  EndTime : Time

/-- Report represents a check vulnerability report: the Go struct embeds `CheckData` and
`ResultData`, whose fields are promoted. -/
structure Report extends CheckData, ResultData

/-- A Go `error` value: `none` is `nil`, `some msg` is `errors.New(msg)`. -/
abbrev Error := Option String

/-! ## Validation (utils.go) -/

mutual
/-- ValidateVulnerability validates a Vulnerability. The call `vulnerability.Validate()`
of the loop body is `ValidateVulnerability vulnerability`. -/
def ValidateVulnerability : Vulnerability → Error
  | ⟨_, Summary, _, _, _, _, _, _, _, _, _, Vulnerabilities⟩ =>
    if Summary = "" then
      some "vulnerability group is missing summary"
    else
      ValidateVulnerability.loop Vulnerabilities
/-- The `for _, vulnerability := range v.Vulnerabilities` loop of `ValidateVulnerability`. -/
def ValidateVulnerability.loop : List Vulnerability → Error
  | [] => none
  | vulnerability :: rest =>
    match ValidateVulnerability vulnerability with
    | some err => some err
    | none =>
      if vulnerability.Vulnerabilities.length > 0 then
        some "child vulnerabilities are not allowed to have children"
      else
        ValidateVulnerability.loop rest
end

/-- Validate checks if a vulnerability is valid. -/
def Vulnerability.Validate (v : Vulnerability) : Error :=
  ValidateVulnerability v

/-- The `for _, v := range r.Vulnerabilities` loop of `ValidateReport`. -/
def ValidateReport.loop : List Vulnerability → Error
  | [] => none
  | v :: rest =>
    match v.Validate with
    | some err => some err
    | none => ValidateReport.loop rest

/-- ValidateReport validates a Report. -/
def ValidateReport (r : Report) : Error :=
  if r.CheckID = "" then
    some "report is missing check ID"
  else if r.ChecktypeName = "" then
    some "report is missing check type name"
  else if r.ChecktypeVersion = "" then
    some "report is missing check type version"
  else if r.Target = "" then
    some "report is missing target"
  else if r.Status = "" then
    some "report is missing status"
  else if r.StartTime = Time.zero then
    some "report is missing start time"
  else
    ValidateReport.loop r.Vulnerabilities

/-- Validate checks if a report is valid. -/
def Report.Validate (r : Report) : Error :=
  ValidateReport r

/-! ## Severity ranks and thresholds (utils.go) -/

/-- SeverityThresholdNone, the untyped constant `0` as a `float32`. -/
def SeverityThresholdNone : Float32 := Float32.zero

/-- SeverityThresholdLow, the untyped constant `3.9` as a `float32`: bits `0x4079999A`. -/
def SeverityThresholdLow : Float32 := ⟨false, 128, 7969178⟩

/-- SeverityThresholdMedium, the untyped constant `6.9` as a `float32`: bits `0x40DCCCCD`. -/
def SeverityThresholdMedium : Float32 := ⟨false, 129, 6081741⟩

/-- SeverityThresholdHigh, the untyped constant `8.9` as a `float32`: bits `0x410E6666`. -/
def SeverityThresholdHigh : Float32 := ⟨false, 130, 943718⟩

/-- SeverityThresholdCritical, the untyped constant `10` as a `float32`: bits `0x41200000`. -/
def SeverityThresholdCritical : Float32 := ⟨false, 130, 2097152⟩

/-- SeverityRank is `type SeverityRank int`. -/
abbrev SeverityRank := Int

/-- SeverityNone defines interesting findings that are not vulnerabilities (`iota` 0). -/
def SeverityNone : SeverityRank := 0
/-- SeverityLow defines vulnerabilities with low impact. -/
def SeverityLow : SeverityRank := 1
/-- SeverityMedium defines vulnerabilities with medium impact. -/
def SeverityMedium : SeverityRank := 2
/-- SeverityHigh defines vulnerabilities with high impact. -/
def SeverityHigh : SeverityRank := 3
/-- SeverityCritical defines vulnerabilities with critical impact. -/
def SeverityCritical : SeverityRank := 4

/-- RankSeverity returns the severity rank according to predefined score thresholds. -/
def RankSeverity (score : Float32) : SeverityRank :=
  if score.le SeverityThresholdNone then SeverityNone
  else if score.le SeverityThresholdLow then SeverityLow
  else if score.le SeverityThresholdMedium then SeverityMedium
  else if score.le SeverityThresholdHigh then SeverityHigh
  else SeverityCritical

/-- ScoreSeverity returns the maximum score according to a severity rank. -/
def ScoreSeverity (severity : SeverityRank) : Float32 :=
  if severity = SeverityNone then SeverityThresholdNone
  else if severity = SeverityLow then SeverityThresholdLow
  else if severity = SeverityMedium then SeverityThresholdMedium
  else if severity = SeverityHigh then SeverityThresholdHigh
  else if severity = SeverityCritical then SeverityThresholdCritical
  else SeverityThresholdCritical

/-! ## Score aggregation (utils.go) -/

/-- ByScore.Less: `v[i].Score > v[j].Score`, on the two elements compared. -/
def ByScore.Less (vi vj : Vulnerability) : Bool :=
  vi.Score.gt vj.Score

/-- The requirement that `sort.Interface` documents for `Less`, on the elements of `l`:
`Less` is a strict order that is transitive, and so is its negation ("if both Less(i, j)
and Less(j, k) are false, then Less(i, k) must be false as well"). The documentation adds
that a floating-point comparison does not meet it when NaN values are involved. -/
def TransitiveOrdering (less : Vulnerability → Vulnerability → Bool)
    (l : List Vulnerability) : Prop :=
  (∀ a ∈ l, less a a = false) ∧
  (∀ a ∈ l, ∀ b ∈ l, ∀ c ∈ l, less a b = true → less b c = true → less a c = true) ∧
  (∀ a ∈ l, ∀ b ∈ l, ∀ c ∈ l, less a b = false → less b c = false → less a c = false)

/-- The library function `sort.Sort`, which is not part of the repository, as a parameter
with its contract. `sort less l` is the contents of the slice after `sort.Sort`, where
`l` is the contents before. The function only calls `Swap`, so the result is a permutation
of `l`; when `Less` meets the documented requirement the result is in ascending order as
determined by `Less`: no element is `Less` than one placed before it. -/
structure SortAlgorithm where
  sort : (Vulnerability → Vulnerability → Bool) → List Vulnerability → List Vulnerability
  perm : ∀ less l, (sort less l).Perm l
  sorted : ∀ less l, TransitiveOrdering less l →
    (sort less l).Pairwise (fun a b => less b a = false)

theorem SortAlgorithm.sort_ne_nil (S : SortAlgorithm)
    (less : Vulnerability → Vulnerability → Bool) {l : List Vulnerability}
    (h : ¬ l.length = 0) : S.sort less l ≠ [] := by
  intro hnil
  have hlen := (S.perm less l).length_eq
  rw [hnil] at hlen
  exact h hlen.symm

/-- AggregateScore returns an aggregated score for a group of vulnerabilities. The second
component is the contents of the argument slice after the call: `sort.Sort` sorts the
slice of the caller in place. -/
def AggregateScore (S : SortAlgorithm) (vulnerabilities : List Vulnerability) :
    Float32 × List Vulnerability :=
  if h : vulnerabilities.length = 0 then
    (Float32.zero, vulnerabilities)
  else
    let sorted := S.sort ByScore.Less vulnerabilities
    ((sorted.head (S.sort_ne_nil ByScore.Less h)).Score, sorted)

/-- The inner loop of the library `insertionSort`,
`for j := i; j > a && data.Less(j, j-1); j-- { data.Swap(j, j-1) }`: the element `x` at
index `i` moves left past every element that it is `Less` than. `before` lists the
elements on the left of `x` from the nearest one; the result lists the elements up to
index `i` in the same way. -/
def insertionSort.inner (less : Vulnerability → Vulnerability → Bool) (x : Vulnerability) :
    List Vulnerability → List Vulnerability
  | [] => [x]
  | y :: before =>
    if less x y then y :: insertionSort.inner less x before else x :: y :: before

/-- The library `insertionSort`, `for i := a + 1; i < b; i++ { ... }`, which `sort.Sort`
runs on a slice of at most 12 elements (and, before the pattern-defeating quicksort was
adopted, after one pass that compares the elements 6 apart, which leaves a slice of at
most 6 elements unchanged). -/
def insertionSort (less : Vulnerability → Vulnerability → Bool) (l : List Vulnerability) :
    List Vulnerability :=
  (l.foldl (fun before x => insertionSort.inner less x before) []).reverse

/-! ## Sample values and shape predicates used to state the theorems -/

/-- A vulnerability with the given summary, score and children and every other field
empty, in the manner of the test helper `vulnerabilityWithCategoryAndScore`. -/
def vulnerabilityWith (summary : String) (score : Float32)
    (children : List Vulnerability) : Vulnerability :=
  ⟨"", summary, score, 0, "", "", "", [], [], [], [], children⟩

/-- A report with the given mandatory fields and vulnerabilities and every other field
empty, in the manner of the `cd0` of the tests. -/
def reportWith (checkID checktypeName checktypeVersion target status : String)
    (startTime : Time) (vulnerabilities : List Vulnerability) : Report :=
  { CheckID := checkID, ChecktypeName := checktypeName, ChecktypeVersion := checktypeVersion,
    Status := status, Target := target, Options := "", Tag := "",
    StartTime := startTime, EndTime := Time.zero,
    Vulnerabilities := vulnerabilities, Data := [], Notes := "", Error := "",
    NotApplicable := false }

mutual
/-- Every vulnerability of the tree, at every nesting level, has a non-empty `Summary`. -/
def allSummariesPresent : Vulnerability → Bool
  | ⟨_, Summary, _, _, _, _, _, _, _, _, _, Vulnerabilities⟩ =>
    decide (Summary ≠ "") && allSummariesPresent.list Vulnerabilities
/-- Every tree of the list satisfies `allSummariesPresent`. -/
def allSummariesPresent.list : List Vulnerability → Bool
  | [] => true
  | v :: rest => allSummariesPresent v && allSummariesPresent.list rest
end

mutual
/-- Two vulnerability trees have the same shape and corresponding nodes agree on whether
`Summary` is empty; all other fields are free. -/
def sameShape : Vulnerability → Vulnerability → Bool
  | ⟨_, s₁, _, _, _, _, _, _, _, _, _, cs₁⟩, ⟨_, s₂, _, _, _, _, _, _, _, _, _, cs₂⟩ =>
    (decide (s₁ = "") == decide (s₂ = "")) && sameShape.list cs₁ cs₂
/-- Two lists of trees have the same length and are pairwise `sameShape`. -/
def sameShape.list : List Vulnerability → List Vulnerability → Bool
  | [], [] => true
  | a :: as, b :: bs => sameShape a b && sameShape.list as bs
  | [], _ :: _ => false
  | _ :: _, [] => false
end

/-! ## Security status and the methods of report.go -/

/-- The untyped constant `2.0` as a `float32`: bits `0x40000000`. -/
def statusBoundA : Float32 := ⟨false, 128, 0⟩
/-- The untyped constant `3.5` as a `float32`: bits `0x40600000`. -/
def statusBoundB : Float32 := ⟨false, 128, 6291456⟩
/-- The untyped constant `5.0` as a `float32`: bits `0x40A00000`. -/
def statusBoundC : Float32 := ⟨false, 129, 2097152⟩
/-- The untyped constant `6.5` as a `float32`: bits `0x40D00000`. -/
def statusBoundD : Float32 := ⟨false, 129, 5242880⟩
/-- The untyped constant `8.0` as a `float32`: bits `0x41000000`. -/
def statusBoundE : Float32 := ⟨false, 130, 0⟩

/-- SecurityStatus returns a grade from A to F (A is good, F is bad) given a target
aggregated score. -/
def SecurityStatus (score : Float32) : String :=
  if score.lt statusBoundA then "A"
  else if score.le statusBoundB then "B"
  else if score.le statusBoundC then "C"
  else if score.le statusBoundD then "D"
  else if score.le statusBoundE then "E"
  else "F"

/-- AddVulnerabilities (on `*ResultData`) is a handy method to add one or more
Vulnerabilities to the ResultData.Vulnerability array. The result is the receiver after
the call. -/
def ResultData.AddVulnerabilities (r : ResultData) (v : List Vulnerability) : ResultData :=
  { r with Vulnerabilities := r.Vulnerabilities ++ v }

/-- AddVulnerabilities (on `*Vulnerability`) is a handy method to add one or more
Vulnerabilities to the Vulnerability.Vulnerabilities array. The result is the receiver
after the call. -/
def Vulnerability.AddVulnerabilities (v : Vulnerability)
    (vulnerabilities : List Vulnerability) : Vulnerability :=
  { v with Vulnerabilities := v.Vulnerabilities ++ vulnerabilities }

/-- AggregateScore (on `*Vulnerability`) recalculates the score field for a parent
vulnerability. The result is the receiver after the call: the package-level
`AggregateScore` sorts `v.Vulnerabilities` in place. -/
def Vulnerability.AggregateScore (S : SortAlgorithm) (v : Vulnerability) : Vulnerability :=
  if v.Vulnerabilities.length > 0 then
    { v with
      Score := (VulcanReport.AggregateScore S v.Vulnerabilities).1
      Vulnerabilities := (VulcanReport.AggregateScore S v.Vulnerabilities).2 }
  else
    v

/-- Severity returns the severity rank for a vulnerability. -/
def Vulnerability.Severity (v : Vulnerability) : SeverityRank :=
  RankSeverity v.Score

/-! ## The time package: representation, calendar, `Format` and `Parse`

`time.Time`, `Time.Format` and `time.Parse` belong to the standard library, not to the
repository. They are modelled here from the library source (`time/time.go`,
`time/format.go`) for the one layout that the package uses, `2006-01-02 15:04:05`, and on
the range where the 64-bit arithmetic of the library does not wrap. Strings are handled as
lists of characters; every character that the layout lets through is ASCII, so bytes and
characters coincide on the accepted strings. -/

namespace Time

/-- The flag `hasMonotonic`, bit 63 of `wall`. -/
def hasMonotonic (t : Time) : Bool :=
  t.wall / 2 ^ 63 % 2 == 1

/-- The method `nsec`: the nanoseconds within the second, the low 30 bits of `wall`. -/
def nsec (t : Time) : Nat :=
  t.wall % 2 ^ 30

/-- The method `sec`: the seconds since January 1 of year 1. With `hasMonotonic` they are
the 33 bits of `wall` above the nanoseconds, counted from 1885; otherwise they are `ext`. -/
def sec (t : Time) : Int :=
  if t.hasMonotonic then 59453308800 + ((t.wall % 2 ^ 63 / 2 ^ 30 : Nat) : Int) else t.ext

/-- The method `abs`: the seconds since January 1 of year 1 shown by a wall clock in the
location of `t`. `zone l unix` is the offset east of UTC, in seconds, that the location at
address `l` has at the Unix time `unix`; the `nil` location is UTC. -/
def abs (zone : Nat → Int → Int) (t : Time) : Int :=
  match t.loc with
  | none => t.sec
  | some l => t.sec + zone l (t.sec - 62135596800)

/-- The table `daysBefore`: the days of a non-leap year before the end of month `m`. -/
def daysBefore : Nat → Int
  | 0 => 0
  | 1 => 31
  | 2 => 59
  | 3 => 90
  | 4 => 120
  | 5 => 151
  | 6 => 181
  | 7 => 212
  | 8 => 243
  | 9 => 273
  | 10 => 304
  | 11 => 334
  | _ => 365

/-- The function `isLeap`. -/
def isLeap (year : Int) : Bool :=
  year % 4 == 0 && (year % 100 != 0 || year % 400 == 0)

/-- The function `daysIn`: the number of days of a month. -/
def daysIn (month : Nat) (year : Int) : Int :=
  if month = 2 ∧ isLeap year = true then 29 else daysBefore month - daysBefore (month - 1)

/-- The first half of `absDate`: the year and the day within the year (from 0) of the day
`d`, counted from January 1 of year 1, by cycles of 400, 100, 4 and 1 years. -/
def yearDay (d : Int) : Int × Int :=
  let n400 := d / 146097
  let d1 := d % 146097
  let n100 := d1 / 36524 - d1 / 36524 / 4
  let d2 := d1 - 36524 * n100
  let n4 := d2 / 1461
  let d3 := d2 - 1461 * n4
  let n1 := d3 / 365 - d3 / 365 / 4
  (400 * n400 + 100 * n100 + 4 * n4 + n1 + 1, d3 - 365 * n1)

/-- The second half of `absDate`: the month and the day of the month of the day `yday` of
a year, by the estimate `day / 31` corrected with the table `daysBefore`. -/
def monthDay (leap : Bool) (yday : Int) : Nat × Int :=
  if leap = true ∧ yday = 59 then (2, 29)
  else
    let day := if leap = true ∧ yday > 59 then yday - 1 else yday
    let month := (day / 31).toNat
    if day ≥ daysBefore (month + 1) then (month + 2, day - daysBefore (month + 1) + 1)
    else (month + 1, day - daysBefore month + 1)

/-- The function `daysSinceEpoch`, counted from January 1 of year 1: the days before
January 1 of `year`. -/
def daysSinceEpoch (year : Int) : Int :=
  let y := year - 1
  let n400 := y / 400
  let y1 := y % 400
  let n100 := y1 / 100
  let y2 := y1 % 100
  let n4 := y2 / 4
  let y3 := y2 % 4
  146097 * n400 + 36524 * n100 + 1461 * n4 + 365 * y3

/-- The function `Date` with the location UTC, on fields that are in range (as `Parse`
passes them, so that nothing is normalised). -/
def Date (year : Int) (month day hour min sec nsec : Nat) : Time :=
  let d := daysSinceEpoch year + daysBefore (month - 1) +
    (if isLeap year = true ∧ month ≥ 3 then 1 else 0) + ((day : Int) - 1)
  ⟨nsec, d * 86400 + hour * 3600 + min * 60 + sec, none⟩

/-- The decimal digit `d` as a character. -/
def digitChar (d : Nat) : Char :=
  Char.ofNat (48 + d % 10)

/-- The decimal digits of `n` without leading zeros, at most `fuel` of them (`appendInt`
has a buffer of 20 bytes, enough for 64 bits). -/
def digits : Nat → Nat → List Char
  | 0, _ => []
  | fuel + 1, n => if n < 10 then [digitChar n] else digits fuel (n / 10) ++ [digitChar n]

/-- The function `appendInt`: a minus sign for a negative `x`, then the decimal form of
the absolute value padded with zeros on the left to `width` digits. -/
def appendInt (x : Int) (width : Nat) : List Char :=
  (if x < 0 then ['-'] else []) ++
    List.replicate (width - (digits 20 x.natAbs).length) '0' ++ digits 20 x.natAbs

/-- The text that `Format` writes for the layout `2006-01-02 15:04:05` when the wall clock
shows `a` seconds since January 1 of year 1: the year on at least four digits, then month,
day, hour, minute and second on two digits each. -/
def formatAbs (a : Int) : String :=
  let yd := yearDay (a / 86400)
  let md := monthDay (isLeap yd.1) yd.2
  let s := a % 86400
  String.mk (appendInt yd.1 4 ++ '-' :: appendInt md.1 2 ++ '-' :: appendInt md.2 2 ++
    ' ' :: appendInt (s / 3600) 2 ++ ':' :: appendInt (s % 3600 / 60) 2 ++
    ':' :: appendInt (s % 60) 2)

/-- The method `Format` for the layout `2006-01-02 15:04:05`. The nanoseconds do not
enter. -/
def Format (zone : Nat → Int → Int) (t : Time) : String :=
  formatAbs (t.abs zone)

/-- Whether a character is a decimal digit, `'0' <= c && c <= '9'`. -/
def isDigitChar (c : Char) : Bool :=
  decide ('0' ≤ c) && decide (c ≤ '9')

/-- The function `isDigit`: whether `s[i]` is in range and is a decimal digit. -/
def isDigit (s : List Char) (i : Nat) : Bool :=
  match s.get? i with
  | some c => isDigitChar c
  | none => false

/-- The value of a decimal digit, `int(s[0] - '0')`. -/
def digitValue (c : Char) : Nat :=
  c.toNat - 48

/-- The function `getnum`: a number of two digits, or of one digit when `fixed` is false
and the second character is not a digit; `none` is `errBad`. -/
def getnum (s : List Char) (fixed : Bool) : Option (Nat × List Char) :=
  if isDigit s 0 = false then none
  else if isDigit s 1 = false then
    if fixed = true then none else some (digitValue (s.getD 0 '0'), s.drop 1)
  else some (digitValue (s.getD 0 '0') * 10 + digitValue (s.getD 1 '0'), s.drop 2)

/-- The function `cutspace`: the string without its leading spaces. -/
def cutspace : List Char → List Char
  | [] => []
  | c :: rest => if c = ' ' then cutspace rest else c :: rest

/-- The function `skip` for a one-character part `c` of the layout: a space of the layout
stands for any number of spaces of the value (for none only at the end of the value), any
other character for itself; `none` is `errBad`. -/
def skip (value : List Char) (c : Char) : Option (List Char) :=
  if c = ' ' then
    match value with
    | [] => some []
    | v :: rest => if v ≠ ' ' then none else some (cutspace (v :: rest))
  else
    match value with
    | [] => none
    | v :: rest => if v ≠ c then none else some rest

/-- The number written by a list of decimal digits, `none` when a character is not a
digit: `atoi` on a string without sign. -/
def atoiDigits (s : List Char) : Option Nat :=
  s.foldl (fun acc c =>
    match acc with
    | some n => if isDigitChar c = true then some (n * 10 + digitValue c) else none
    | none => none) (some 0)

/-- The function `parseNanoseconds` on the `n` first characters of `value`, which are a
period or a comma and `n - 1` digits: the nanoseconds that the first nine digits stand
for. -/
def parseNanoseconds (value : List Char) (n : Nat) : Option Nat :=
  let nbytes := if n > 10 then 10 else n
  match atoiDigits ((value.take nbytes).drop 1) with
  | some ns => some (ns * 10 ^ (10 - nbytes))
  | none => none

/-- The elements that the loop of `time.Parse` reads for the layout `2006-01-02 15:04:05`:
the year on four digits, the month and the day on two, one or more spaces, the hour on one
or two digits, the minute and the second on two, and, since the layout ends with the
seconds, an optional fraction of a second (a period, or since Go 1.17 a comma, followed by
digits). Month,
hour, minute and second are checked against their ranges when read, the day against the
month at the end. The result is year, month, day, hour, minute, second and nanoseconds;
`none` stands for every error return. -/
def Parse.fields (value : List Char) : Option (Nat × Nat × Nat × Nat × Nat × Nat × Nat) :=
  -- stdLongYear
  if value.length < 4 ∨ isDigit value 0 = false then none else
  match atoiDigits (value.take 4) with
  | none => none
  | some year =>
  match skip (value.drop 4) '-' with
  | none => none
  | some v =>
  -- stdZeroMonth
  match getnum v true with
  | none => none
  | some (month, v) =>
  if month ≤ 0 ∨ 12 < month then none else
  match skip v '-' with
  | none => none
  | some v =>
  -- stdZeroDay
  match getnum v true with
  | none => none
  | some (day, v) =>
  match skip v ' ' with
  | none => none
  | some v =>
  -- stdHour
  match getnum v false with
  | none => none
  | some (hour, v) =>
  if 24 ≤ hour then none else
  match skip v ':' with
  | none => none
  | some v =>
  -- stdZeroMinute
  match getnum v true with
  | none => none
  | some (min, v) =>
  if 60 ≤ min then none else
  match skip v ':' with
  | none => none
  | some v =>
  -- stdZeroSecond
  match getnum v true with
  | none => none
  | some (sec, v) =>
  if 60 ≤ sec then none else
  -- a fractional second in the value, none in the layout
  match (if v.length ≥ 2 ∧ (v.getD 0 ' ' = '.' ∨ v.getD 0 ' ' = ',') ∧ isDigit v 1 = true then
      match parseNanoseconds v (2 + ((v.drop 2).takeWhile isDigitChar).length) with
      | some nsec => some (nsec, v.drop (2 + ((v.drop 2).takeWhile isDigitChar).length))
      | none => none
    else some (0, v)) with
  | none => none
  | some (nsec, v) =>
  -- end of the layout: extra text
  if v.length ≠ 0 then none else
  -- the day of the month
  if (day : Int) < 1 ∨ (day : Int) > daysIn month year then none else
  some (year, month, day, hour, min, sec, nsec)

/-- The text of the error of `time.Parse`; the library gives more detail (the value, the
layout and the element that failed), which no function of the package looks at. -/
def parseError : String := "parsing time: cannot parse value as layout"

/-- The function `time.Parse` for the layout `2006-01-02 15:04:05`: the time in UTC that
the elements read stand for and a `nil` error, or the zero time and an error. -/
def Parse (value : String) : Time × Error :=
  match Parse.fields value.data with
  | some (year, month, day, hour, min, sec, nsec) =>
    (Date year month day hour min sec nsec, none)
  | none => (Time.zero, some parseError)

/-- The years and days counted by cycles: `a` cycles of 400 years, then `b` centuries,
`c` cycles of 4 years, `e` years and `k` days, where the last day of a cycle exists only
when the cycle ends on a leap year. -/
structure Cycles (a b c e k : Int) : Prop where
  b0 : 0 ≤ b
  b3 : b ≤ 3
  c0 : 0 ≤ c
  c24 : c ≤ 24
  e0 : 0 ≤ e
  e3 : e ≤ 3
  k0 : 0 ≤ k
  k365 : k ≤ 365
  leap : k = 365 → e = 3 ∧ (c ≠ 24 ∨ b = 3)


/-- The method `Year`: the year in which `t` occurs, in the location of `t`. -/
def Year (zone : Nat → Int → Int) (t : Time) : Int :=
  (yearDay (t.abs zone / 86400)).1

end Time

/-! ## The codec (report.go)

`json.Marshal` and `json.Unmarshal` belong to the standard library. What the package
hands to them and gets back from them is a JSON object; the model stops at the members of
that object and does not go down to its bytes. -/

/-- Whether `json.Marshal` refuses a `float32`: a NaN and an infinity give an
`UnsupportedValueError`. These are the values whose exponent bits are all set. -/
def Float32.isUnsupported (x : Float32) : Bool :=
  x.exponent.val == 255

mutual
/-- Whether some `Score` of the tree is a value that `json.Marshal` refuses. -/
def hasUnsupportedScore : Vulnerability → Bool
  | ⟨_, _, Score, _, _, _, _, _, _, _, _, Vulnerabilities⟩ =>
    Score.isUnsupported || hasUnsupportedScore.list Vulnerabilities
/-- Whether some `Score` of the trees of the list is a value that `json.Marshal` refuses. -/
def hasUnsupportedScore.list : List Vulnerability → Bool
  | [] => false
  | v :: rest => hasUnsupportedScore v || hasUnsupportedScore.list rest
end

/-- The members of the JSON object that `json.Marshal` writes for the auxiliary struct of
`MarshalJSONTimeAsString`, under the names of the struct tags. The struct embeds `Report`
and declares `StartTime` and `EndTime` anew as strings with the tags `start_time` and
`end_time`; the fields declared at the lesser depth win, so these two members are the
strings and the `time.Time` fields of `CheckData` are not written. A member with
`omitempty` that is left out is held here with its empty value. -/
structure Document where
  check_id : String
  checktype_name : String
  checktype_version : String
  status : String
  target : String
  options : String
  tag : String
  vulnerabilities : List Vulnerability
  data : List (Fin 256)
  notes : String
  error : String
  not_applicable : Bool
  start_time : String
  end_time : String

/-- The function `json.Marshal` on the auxiliary struct: the object, or an error when a
`Score` is NaN or infinite (the error of the library names the value; its text is not
looked at). No other value of these types is refused. -/
def jsonMarshal (aux : Document) : Option Document × Error :=
  if hasUnsupportedScore.list aux.vulnerabilities = true then
    (none, some "json: unsupported value")
  else
    (some aux, none)

/-- The function `formatTime`; `none` is the `nil` pointer. -/
def formatTime (zone : Nat → Int → Int) (t : Option Time) : String :=
  match t with
  | some t => t.Format zone
  | none => ""

/-- MarshalJSONTimeAsString marshals a Report to JSON using time as string. The pointers
`&r.StartTime` and `&r.EndTime` handed to `formatTime` are addresses of fields. -/
def Report.MarshalJSONTimeAsString (zone : Nat → Int → Int) (r : Report) :
    Option Document × Error :=
  jsonMarshal
    { check_id := r.CheckID
      checktype_name := r.ChecktypeName
      checktype_version := r.ChecktypeVersion
      status := r.Status
      target := r.Target
      options := r.Options
      tag := r.Tag
      vulnerabilities := r.Vulnerabilities
      data := r.Data
      notes := r.Notes
      error := r.Error
      not_applicable := r.NotApplicable
      start_time := formatTime zone (some r.StartTime)
      end_time := formatTime zone (some r.EndTime) }

/-- What `json.Unmarshal(data, &aux)` makes of an input `data` that is a JSON object or is
not well-formed, for the auxiliary struct of `UnmarshalJSONTimeAsString`, which embeds the
pointer to the receiver and declares `StartTime` and `EndTime` anew as strings (the JSON
value `null`, which makes `aux` itself `nil`, is left aside):

* `err` is the error returned, `nil` for a well-formed input;
* `start_time` and `end_time` are the members of these names when they are present as
  strings (an absent member and a `null` leave the field of `aux` as it is);
* `members r` is the receiver after the other members have been stored in its fields, `r`
  being the receiver before; the fields `StartTime` and `EndTime` of the receiver are out
  of reach of `json.Unmarshal`, the fields of `aux` taking the two names. -/
structure Input where
  err : Error
  start_time : Option String
  end_time : Option String
  members : Report → Report

/-- UnmarshalJSONTimeAsString unmarshals a JSON to a Report using time as string. The
result is the receiver after the call and the error returned. -/
def Report.UnmarshalJSONTimeAsString (r : Report) (data : Input) : Report × Error :=
  -- aux := &struct{...}{Report: r}; json.Unmarshal(data, &aux)
  let r1 : Report := { data.members r with StartTime := r.StartTime, EndTime := r.EndTime }
  let auxStartTime := data.start_time.getD ""
  let auxEndTime := data.end_time.getD ""
  match data.err with
  | some err => (r1, some err)
  | none =>
    let afterStart : Report × Error :=
      if auxStartTime.length > 0 then
        match Time.Parse auxStartTime with
        | (startTime, none) => ({ r1 with StartTime := startTime }, none)
        | (_, some err) => (r1, some err)
      else (r1, none)
    match afterStart with
    | (r2, some err) => (r2, some err)
    | (r2, none) =>
      if auxEndTime.length > 0 then
        match Time.Parse auxEndTime with
        | (endTime, none) => ({ r2 with EndTime := endTime }, none)
        | (_, some err) => (r2, some err)
      else (r2, none)

/-- The zero value of `Report`, the receiver `var r Report` of the tests. -/
def Report.fresh : Report :=
  { CheckID := "", ChecktypeName := "", ChecktypeVersion := "", Status := "", Target := "",
    Options := "", Tag := "", StartTime := Time.zero, EndTime := Time.zero,
    Vulnerabilities := [], Data := [], Notes := "", Error := "", NotApplicable := false }

/-- An input that is well-formed, holds the two timestamps given and stores nothing else,
such as `{"start_time": ..., "end_time": ...}`. -/
def inputWithTimes (start_time end_time : Option String) : Input :=
  { err := none, start_time := start_time, end_time := end_time, members := fun r => r }

/-- The string `YYYY-MM-DD hh:mm:ss` written with the digits of six numbers, the year
below 10000 and the others below 100. -/
def layoutString (year month day hour min sec : Nat) : String :=
  String.mk [Time.digitChar (year / 1000), Time.digitChar (year / 100),
    Time.digitChar (year / 10), Time.digitChar year, '-',
    Time.digitChar (month / 10), Time.digitChar month, '-',
    Time.digitChar (day / 10), Time.digitChar day, ' ',
    Time.digitChar (hour / 10), Time.digitChar hour, ':',
    Time.digitChar (min / 10), Time.digitChar min, ':',
    Time.digitChar (sec / 10), Time.digitChar sec]

/-- Whether a string matches the pattern `YYYY-MM-DD hh:mm:ss` exactly: nineteen
characters, digits at the places of the letters and the separators of the pattern. -/
def matchesLayout (s : String) : Bool :=
  match s.data with
  | [y1, y2, y3, y4, a, m1, m2, b, d1, d2, c, h1, h2, e, n1, n2, f, s1, s2] =>
    Time.isDigitChar y1 && Time.isDigitChar y2 && Time.isDigitChar y3 &&
    Time.isDigitChar y4 && a == '-' && Time.isDigitChar m1 && Time.isDigitChar m2 &&
    b == '-' && Time.isDigitChar d1 && Time.isDigitChar d2 && c == ' ' &&
    Time.isDigitChar h1 && Time.isDigitChar h2 && e == ':' && Time.isDigitChar n1 &&
    Time.isDigitChar n2 && f == ':' && Time.isDigitChar s1 && Time.isDigitChar s2
  | _ => false

theorem Float32.scaled_lt_of_magnitude_lt {x y : Float32} (h : x.magnitude < y.magnitude) :
    x.scaled < y.scaled := by
  obtain ⟨sx, ⟨ex, hex⟩, ⟨mx, hmx⟩⟩ := x
  obtain ⟨sy, ⟨ey, hey⟩, ⟨my, hmy⟩⟩ := y
  simp only [Float32.magnitude, Float32.scaled] at *
  rcases Nat.lt_trichotomy ex ey with hlt | heq | hgt
  · have hy : ¬ ey = 0 := by omega
    rw [if_neg hy]
    have hpow : 2 ^ (ex + 1) ≤ 2 ^ ey := Nat.pow_le_pow_right (by decide) hlt
    have hlow : 8388608 * 2 ^ ey ≤ (8388608 + my) * 2 ^ ey :=
      Nat.mul_le_mul_right _ (Nat.le_add_right _ _)
    by_cases hx : ex = 0
    · rw [if_pos hx]
      subst hx
      simp only [zero_add, pow_one] at hpow
      omega
    · rw [if_neg hx]
      have hup : (8388608 + mx) * 2 ^ ex < 16777216 * 2 ^ ex :=
        Nat.mul_lt_mul_of_pos_right (by omega) (Nat.two_pow_pos _)
      have : 16777216 * 2 ^ ex = 8388608 * 2 ^ (ex + 1) := by
        rw [pow_succ]; ring
      have h3 : 8388608 * 2 ^ (ex + 1) ≤ 8388608 * 2 ^ ey := Nat.mul_le_mul_left _ hpow
      omega
  · subst heq
    have hm : mx < my := by omega
    by_cases hx : ex = 0
    · rw [if_pos hx, if_pos hx]
      omega
    · rw [if_neg hx, if_neg hx]
      exact Nat.mul_lt_mul_of_pos_right (by omega) (Nat.two_pow_pos _)
  · omega

theorem Float32.scaled_eq_of_magnitude_eq {x y : Float32} (h : x.magnitude = y.magnitude) :
    x.scaled = y.scaled := by
  obtain ⟨sx, ⟨ex, hex⟩, ⟨mx, hmx⟩⟩ := x
  obtain ⟨sy, ⟨ey, hey⟩, ⟨my, hmy⟩⟩ := y
  simp only [Float32.magnitude, Float32.scaled] at *
  have he : ex = ey := by omega
  have hm : mx = my := by omega
  rw [he, hm]

theorem Float32.magnitude_le_iff (x y : Float32) :
    x.magnitude ≤ y.magnitude ↔ x.scaled ≤ y.scaled := by
  constructor
  · intro h
    rcases Nat.lt_or_eq_of_le h with h | h
    · exact Nat.le_of_lt (Float32.scaled_lt_of_magnitude_lt h)
    · exact Nat.le_of_eq (Float32.scaled_eq_of_magnitude_eq h)
  · intro h
    by_contra hn
    have := Float32.scaled_lt_of_magnitude_lt (Nat.lt_of_not_le hn)
    omega

theorem Float32.magnitude_eq_zero_iff (x : Float32) : x.magnitude = 0 ↔ x.scaled = 0 := by
  have h := Float32.magnitude_le_iff x Float32.zero
  have h0 : Float32.zero.magnitude = 0 := by decide
  have h1 : Float32.zero.scaled = 0 := by decide
  rw [h0, h1] at h
  omega

/-- The order of the keys is the order of the numbers denoted: on values that are not NaN,
`Float32.le` and `Float32.lt` are the comparisons of IEEE 754. -/
theorem Float32.key_le_iff_toRat_le (x y : Float32) : x.key ≤ y.key ↔ x.toRat ≤ y.toRat := by
  have hpos : (0 : ℚ) < 2 ^ 150 := by positivity
  have hle := Float32.magnitude_le_iff x y
  have hge := Float32.magnitude_le_iff y x
  have hx0 := Float32.magnitude_eq_zero_iff x
  have hy0 := Float32.magnitude_eq_zero_iff y
  have hsx : (0 : ℚ) ≤ x.scaled := Nat.cast_nonneg _
  have hsy : (0 : ℚ) ≤ y.scaled := Nat.cast_nonneg _
  unfold Float32.key Float32.toRat
  cases hx : x.sign <;> cases hy : y.sign <;> simp only [if_true, if_false, Bool.false_eq_true]
  · rw [div_le_div_iff_of_pos_right hpos, Nat.cast_le, Nat.cast_le]
    exact hle
  · constructor
    · intro h
      have h1 : x.magnitude = 0 := by omega
      have h2 : y.magnitude = 0 := by omega
      rw [hx0.mp h1, hy0.mp h2]
      simp
    · intro h
      have h3 : (x.scaled : ℚ) / 2 ^ 150 + (y.scaled : ℚ) / 2 ^ 150 ≤ 0 := by linarith
      have h4 : (0 : ℚ) ≤ (x.scaled : ℚ) / 2 ^ 150 := div_nonneg hsx hpos.le
      have h5 : (0 : ℚ) ≤ (y.scaled : ℚ) / 2 ^ 150 := div_nonneg hsy hpos.le
      have h6 : (x.scaled : ℚ) / 2 ^ 150 = 0 := by linarith
      have h7 : (y.scaled : ℚ) / 2 ^ 150 = 0 := by linarith
      have h8 : x.scaled = 0 := by
        rcases div_eq_zero_iff.mp h6 with h | h
        · exact_mod_cast h
        · exact absurd h hpos.ne'
      have h9 : y.scaled = 0 := by
        rcases div_eq_zero_iff.mp h7 with h | h
        · exact_mod_cast h
        · exact absurd h hpos.ne'
      have := hx0.mpr h8
      have := hy0.mpr h9
      omega
  · constructor
    · intro _
      have h4 : (0 : ℚ) ≤ (x.scaled : ℚ) / 2 ^ 150 := div_nonneg hsx hpos.le
      have h5 : (0 : ℚ) ≤ (y.scaled : ℚ) / 2 ^ 150 := div_nonneg hsy hpos.le
      linarith
    · intro _
      omega
  · rw [neg_le_neg_iff, neg_le_neg_iff, div_le_div_iff_of_pos_right hpos, Nat.cast_le,
      Nat.cast_le]
    exact hge

/-- The constant `3.9` lies between two adjacent `float32` values and is nearer to the
upper one, which is `SeverityThresholdLow`. -/
theorem SeverityThresholdLow_nearest :
    Float32.toRat ⟨false, 128, 7969177⟩ < 39 / 10 ∧
    (39 / 10 : ℚ) < SeverityThresholdLow.toRat ∧
    SeverityThresholdLow.toRat - 39 / 10 < 39 / 10 - Float32.toRat ⟨false, 128, 7969177⟩ := by
  have h1 : Float32.scaled ⟨false, 128, 7969177⟩ = 16357785 * 2 ^ 128 := by decide
  have h2 : Float32.scaled ⟨false, 128, 7969178⟩ = 16357786 * 2 ^ 128 := by decide
  simp only [Float32.toRat, SeverityThresholdLow, h1, h2]
  norm_num

/-- The constant `6.9` lies between two adjacent `float32` values and is nearer to the
upper one, which is `SeverityThresholdMedium`. -/
theorem SeverityThresholdMedium_nearest :
    Float32.toRat ⟨false, 129, 6081740⟩ < 69 / 10 ∧
    (69 / 10 : ℚ) < SeverityThresholdMedium.toRat ∧
    SeverityThresholdMedium.toRat - 69 / 10 <
      69 / 10 - Float32.toRat ⟨false, 129, 6081740⟩ := by
  have h1 : Float32.scaled ⟨false, 129, 6081740⟩ = 14470348 * 2 ^ 129 := by decide
  have h2 : Float32.scaled ⟨false, 129, 6081741⟩ = 14470349 * 2 ^ 129 := by decide
  simp only [Float32.toRat, SeverityThresholdMedium, h1, h2]
  norm_num

/-- The constant `8.9` lies between two adjacent `float32` values and is nearer to the
lower one, which is `SeverityThresholdHigh`. -/
theorem SeverityThresholdHigh_nearest :
    SeverityThresholdHigh.toRat < 89 / 10 ∧
    (89 / 10 : ℚ) < Float32.toRat ⟨false, 130, 943719⟩ ∧
    89 / 10 - SeverityThresholdHigh.toRat < Float32.toRat ⟨false, 130, 943719⟩ - 89 / 10 := by
  have h1 : Float32.scaled ⟨false, 130, 943718⟩ = 9332326 * 2 ^ 130 := by decide
  have h2 : Float32.scaled ⟨false, 130, 943719⟩ = 9332327 * 2 ^ 130 := by decide
  simp only [Float32.toRat, SeverityThresholdHigh, h1, h2]
  norm_num

/-- The constants `0` and `10` are `float32` values. -/
theorem SeverityThresholdNone_Critical_exact :
    SeverityThresholdNone.toRat = 0 ∧ SeverityThresholdCritical.toRat = 10 := by
  have h1 : Float32.scaled ⟨false, 0, 0⟩ = 0 := by decide
  have h2 : Float32.scaled ⟨false, 130, 2097152⟩ = 10485760 * 2 ^ 130 := by decide
  simp only [Float32.toRat, SeverityThresholdNone, Float32.zero, SeverityThresholdCritical,
    h1, h2]
  norm_num

/-! ## Lemmas on the validation loops -/

theorem ValidateVulnerability_eq (v : Vulnerability) :
    ValidateVulnerability v =
      if v.Summary = "" then some "vulnerability group is missing summary"
      else ValidateVulnerability.loop v.Vulnerabilities := by
  cases v
  rw [ValidateVulnerability]

theorem ValidateVulnerability.loop_eq_none_iff (cs : List Vulnerability) :
    ValidateVulnerability.loop cs = none ↔
      ∀ c ∈ cs, ValidateVulnerability c = none ∧ c.Vulnerabilities = [] := by
  induction cs with
  | nil => simp [ValidateVulnerability.loop]
  | cons c rest ih =>
    rw [ValidateVulnerability.loop]
    cases hc : ValidateVulnerability c with
    | some e => simp [hc]
    | none =>
      by_cases hl : c.Vulnerabilities = []
      · simp [hc, hl, ih]
      · have : c.Vulnerabilities.length > 0 := List.length_pos.mpr hl
        simp [hc, hl, this]

theorem ValidateReport.loop_eq_find (vs : List Vulnerability) :
    ValidateReport.loop vs =
      (vs.find? fun v => (ValidateVulnerability v).isSome).bind ValidateVulnerability := by
  induction vs with
  | nil => rfl
  | cons v rest ih =>
    rw [ValidateReport.loop, Vulnerability.Validate]
    cases hv : ValidateVulnerability v with
    | some e => simp [List.find?, hv]
    | none => simp [List.find?, hv, ih]

/-- In a tree whose nodes all have a summary, validation can only fail on the nesting
rule. -/
theorem ValidateVulnerability_of_allSummariesPresent :
    ∀ v : Vulnerability, allSummariesPresent v = true →
      ValidateVulnerability v = none ∨
      ValidateVulnerability v = some "child vulnerabilities are not allowed to have children" := by
  intro v
  refine Vulnerability.rec
    (motive_1 := fun v => allSummariesPresent v = true →
      ValidateVulnerability v = none ∨
      ValidateVulnerability v = some "child vulnerabilities are not allowed to have children")
    (motive_2 := fun cs => allSummariesPresent.list cs = true →
      ValidateVulnerability.loop cs = none ∨
      ValidateVulnerability.loop cs =
        some "child vulnerabilities are not allowed to have children")
    ?_ ?_ ?_ v
  · intro _ Summary _ _ _ _ _ _ _ _ _ cs ih h
    simp only [allSummariesPresent, Bool.and_eq_true, decide_eq_true_eq] at h
    rw [ValidateVulnerability, if_neg h.1]
    exact ih h.2
  · intro _
    exact Or.inl (by rw [ValidateVulnerability.loop])
  · intro c rest ihc ihrest h
    simp only [allSummariesPresent.list, Bool.and_eq_true] at h
    rw [ValidateVulnerability.loop]
    rcases ihc h.1 with hc | hc
    · rw [hc]
      by_cases hl : c.Vulnerabilities.length > 0
      · simp [hl]
      · simpa [hl] using ihrest h.2
    · rw [hc]; exact Or.inr rfl

theorem allSummariesPresent.list_mem {cs : List Vulnerability}
    (h : allSummariesPresent.list cs = true) : ∀ c ∈ cs, allSummariesPresent c = true := by
  induction cs with
  | nil => simp
  | cons c rest ih =>
    simp only [allSummariesPresent.list, Bool.and_eq_true] at h
    intro x hx
    rcases List.mem_cons.mp hx with rfl | hx
    · exact h.1
    · exact ih h.2 x hx

theorem ValidateVulnerability.loop_child_with_children (cs : List Vulnerability)
    (hs : ∀ c ∈ cs, allSummariesPresent c = true)
    (hex : ∃ c ∈ cs, c.Vulnerabilities ≠ []) :
    ValidateVulnerability.loop cs =
      some "child vulnerabilities are not allowed to have children" := by
  induction cs with
  | nil => simp at hex
  | cons c rest ih =>
    rw [ValidateVulnerability.loop]
    rcases ValidateVulnerability_of_allSummariesPresent c (hs c (List.mem_cons_self _ _))
      with hc | hc
    · rw [hc]
      by_cases hl : c.Vulnerabilities.length > 0
      · simp [hl]
      · have hnil : c.Vulnerabilities = [] := by
          cases hcv : c.Vulnerabilities with
          | nil => rfl
          | cons a l => simp [hcv] at hl
        obtain ⟨d, hd, hdc⟩ := hex
        rcases List.mem_cons.mp hd with rfl | hd
        · exact absurd hnil hdc
        · simpa [hl] using ih (fun x hx => hs x (List.mem_cons_of_mem _ hx)) ⟨d, hd, hdc⟩
    · rw [hc]

theorem sameShape.list_length (as bs : List Vulnerability)
    (h : sameShape.list as bs = true) : as.length = bs.length := by
  induction as generalizing bs with
  | nil =>
    cases bs with
    | nil => rfl
    | cons b bs => simp [sameShape.list] at h
  | cons a as ih =>
    cases bs with
    | nil => simp [sameShape.list] at h
    | cons b bs =>
      simp only [sameShape.list, Bool.and_eq_true] at h
      simp [ih bs h.2]

theorem ValidateVulnerability_sameShape :
    ∀ a b : Vulnerability, sameShape a b = true →
      ValidateVulnerability a = ValidateVulnerability b := by
  intro a
  refine Vulnerability.rec
    (motive_1 := fun a => ∀ b, sameShape a b = true →
      ValidateVulnerability a = ValidateVulnerability b)
    (motive_2 := fun as => ∀ bs, sameShape.list as bs = true →
      ValidateVulnerability.loop as = ValidateVulnerability.loop bs)
    ?_ ?_ ?_ a
  · intro _ s₁ _ _ _ _ _ _ _ _ _ cs₁ ih b h
    obtain ⟨_, s₂, _, _, _, _, _, _, _, _, _, cs₂⟩ := b
    simp only [sameShape, Bool.and_eq_true, beq_iff_eq, decide_eq_decide] at h
    rw [ValidateVulnerability, ValidateVulnerability, ih cs₂ h.2]
    by_cases h1 : s₁ = ""
    · rw [if_pos h1, if_pos (h.1.mp h1)]
    · rw [if_neg h1, if_neg (fun h2 => h1 (h.1.mpr h2))]
  · intro bs h
    cases bs with
    | nil => rfl
    | cons b bs => simp [sameShape.list] at h
  · intro a as iha ihas bs h
    cases bs with
    | nil => simp [sameShape.list] at h
    | cons b bs =>
      simp only [sameShape.list, Bool.and_eq_true] at h
      have hlen : a.Vulnerabilities.length = b.Vulnerabilities.length := by
        obtain ⟨_, s₁, _, _, _, _, _, _, _, _, _, cs₁⟩ := a
        obtain ⟨_, s₂, _, _, _, _, _, _, _, _, _, cs₂⟩ := b
        have h1 := h.1
        simp only [sameShape, Bool.and_eq_true] at h1
        exact sameShape.list_length cs₁ cs₂ h1.2
      rw [ValidateVulnerability.loop, ValidateVulnerability.loop, iha b h.1, ihas bs h.2, hlen]

/-! ## ValidateReport -/

/-- C1: when a mandatory field of the report is missing, `ValidateReport` fails with the
message of the earliest missing field in the order CheckID, ChecktypeName,
ChecktypeVersion, Target, Status, StartTime, whatever the later fields, the other fields
and the vulnerabilities are. -/
theorem ValidateReport_earliest_missing_field (r : Report) :
    (r.CheckID = "" → ValidateReport r = some "report is missing check ID") ∧
    (r.CheckID ≠ "" → r.ChecktypeName = "" →
      ValidateReport r = some "report is missing check type name") ∧
    (r.CheckID ≠ "" → r.ChecktypeName ≠ "" → r.ChecktypeVersion = "" →
      ValidateReport r = some "report is missing check type version") ∧
    (r.CheckID ≠ "" → r.ChecktypeName ≠ "" → r.ChecktypeVersion ≠ "" → r.Target = "" →
      ValidateReport r = some "report is missing target") ∧
    (r.CheckID ≠ "" → r.ChecktypeName ≠ "" → r.ChecktypeVersion ≠ "" → r.Target ≠ "" →
      r.Status = "" → ValidateReport r = some "report is missing status") ∧
    (r.CheckID ≠ "" → r.ChecktypeName ≠ "" → r.ChecktypeVersion ≠ "" → r.Target ≠ "" →
      r.Status ≠ "" → r.StartTime = Time.zero →
      ValidateReport r = some "report is missing start time") := by
  refine ⟨?_, ?_, ?_, ?_, ?_, ?_⟩
  · intro h1
    simp [ValidateReport, h1]
  · intro h1 h2
    simp [ValidateReport, h1, h2]
  · intro h1 h2 h3
    simp [ValidateReport, h1, h2, h3]
  · intro h1 h2 h3 h4
    simp [ValidateReport, h1, h2, h3, h4]
  · intro h1 h2 h3 h4 h5
    simp [ValidateReport, h1, h2, h3, h4, h5]
  · intro h1 h2 h3 h4 h5 h6
    simp [ValidateReport, h1, h2, h3, h4, h5, h6]

/-- A report that misses its check type name, its target and its start time and carries
an invalid vulnerability: the check type name is reported. -/
theorem ValidateReport_earliest_missing_field_witness :
    (reportWith "ID0" "" "CTV0" "" "FINISHED" Time.zero
        [vulnerabilityWith "" Float32.zero []]).CheckID ≠ "" ∧
    (reportWith "ID0" "" "CTV0" "" "FINISHED" Time.zero
        [vulnerabilityWith "" Float32.zero []]).ChecktypeName = "" ∧
    ValidateReport (reportWith "ID0" "" "CTV0" "" "FINISHED" Time.zero
        [vulnerabilityWith "" Float32.zero []]) = some "report is missing check type name" :=
  ⟨by decide, by decide,
    (ValidateReport_earliest_missing_field (reportWith "ID0" "" "CTV0" "" "FINISHED" Time.zero
        [vulnerabilityWith "" Float32.zero []])).2.1 (by decide) (by decide)⟩

/-- C2: when every mandatory field is present, `ValidateReport` returns the error of
`ValidateVulnerability` on the first element of `Vulnerabilities` that fails validation,
and no error when no element fails. -/
theorem ValidateReport_first_invalid_vulnerability (r : Report)
    (h1 : r.CheckID ≠ "") (h2 : r.ChecktypeName ≠ "") (h3 : r.ChecktypeVersion ≠ "")
    (h4 : r.Target ≠ "") (h5 : r.Status ≠ "") (h6 : r.StartTime ≠ Time.zero) :
    ValidateReport r =
      match r.Vulnerabilities.find? (fun v => (ValidateVulnerability v).isSome) with
      | some v => ValidateVulnerability v
      | none => none := by
  simp only [ValidateReport, h1, h2, h3, h4, h5, h6, if_false]
  rw [ValidateReport.loop_eq_find]
  cases List.find? (fun v => (ValidateVulnerability v).isSome) r.Vulnerabilities <;> rfl

/-- A report with all mandatory fields, a valid vulnerability, then one without summary,
then one whose child has a child: the error is the one of the second element. -/
theorem ValidateReport_first_invalid_vulnerability_witness :
    ValidateReport (reportWith "ID0" "CT0" "CTV0" "example.com" "FINISHED" ⟨1, 0, none⟩
      [vulnerabilityWith "ok" Float32.zero [],
       vulnerabilityWith "" Float32.zero [],
       vulnerabilityWith "a" Float32.zero
         [vulnerabilityWith "b" Float32.zero [vulnerabilityWith "c" Float32.zero []]]]) =
      ValidateVulnerability (vulnerabilityWith "" Float32.zero []) :=
  ValidateReport_first_invalid_vulnerability
    (reportWith "ID0" "CT0" "CTV0" "example.com" "FINISHED" ⟨1, 0, none⟩
      [vulnerabilityWith "ok" Float32.zero [],
       vulnerabilityWith "" Float32.zero [],
       vulnerabilityWith "a" Float32.zero
         [vulnerabilityWith "b" Float32.zero [vulnerabilityWith "c" Float32.zero []]]])
    (by decide) (by decide) (by decide) (by decide) (by decide) (by decide)

/-! ## ValidateVulnerability -/

/-- C3: `ValidateVulnerability v` returns no error if and only if `v.Summary` is non-empty
and every child of `v` has a non-empty `Summary` and no children of its own. -/
theorem ValidateVulnerability_eq_none_iff (v : Vulnerability) :
    ValidateVulnerability v = none ↔
      v.Summary ≠ "" ∧ ∀ c ∈ v.Vulnerabilities, c.Summary ≠ "" ∧ c.Vulnerabilities = [] := by
  rw [ValidateVulnerability_eq]
  by_cases hs : v.Summary = ""
  · simp [hs]
  · rw [if_neg hs, ValidateVulnerability.loop_eq_none_iff]
    constructor
    · intro h
      refine ⟨hs, fun c hc => ?_⟩
      obtain ⟨hv, hnil⟩ := h c hc
      refine ⟨?_, hnil⟩
      intro hcs
      rw [ValidateVulnerability_eq, if_pos hcs] at hv
      exact Option.some_ne_none _ hv
    · intro h c hc
      obtain ⟨hcs, hnil⟩ := h.2 c hc
      refine ⟨?_, hnil⟩
      rw [ValidateVulnerability_eq, if_neg hcs, hnil, ValidateVulnerability.loop]

/-- C4: a vulnerability with an empty `Summary` fails with "vulnerability group is missing
summary", whatever its children and other fields are. -/
theorem ValidateVulnerability_missing_summary (v : Vulnerability) (h : v.Summary = "") :
    ValidateVulnerability v = some "vulnerability group is missing summary" := by
  rw [ValidateVulnerability_eq, if_pos h]

/-- A vulnerability without summary whose child has a child of its own. -/
theorem ValidateVulnerability_missing_summary_witness :
    (vulnerabilityWith "" SeverityThresholdHigh
      [vulnerabilityWith "b" Float32.zero [vulnerabilityWith "c" Float32.zero []]]).Summary
        = "" ∧
    ValidateVulnerability (vulnerabilityWith "" SeverityThresholdHigh
      [vulnerabilityWith "b" Float32.zero [vulnerabilityWith "c" Float32.zero []]]) =
      some "vulnerability group is missing summary" :=
  ⟨by decide, ValidateVulnerability_missing_summary _ (by decide)⟩

/-- C5: when every vulnerability of the tree, at every nesting level, has a non-empty
`Summary` and at least one child has one or more children, `ValidateVulnerability` fails
with "child vulnerabilities are not allowed to have children". -/
theorem ValidateVulnerability_child_with_children (v : Vulnerability)
    (hs : allSummariesPresent v = true)
    (hc : ∃ c ∈ v.Vulnerabilities, c.Vulnerabilities ≠ []) :
    ValidateVulnerability v =
      some "child vulnerabilities are not allowed to have children" := by
  obtain ⟨_, Summary, _, _, _, _, _, _, _, _, _, cs⟩ := v
  simp only [allSummariesPresent, Bool.and_eq_true, decide_eq_true_eq] at hs
  rw [ValidateVulnerability, if_neg hs.1]
  exact ValidateVulnerability.loop_child_with_children cs
    (allSummariesPresent.list_mem hs.2) hc

/-- A group with a plain child followed by a child that has a child which itself has a
child (four levels). -/
theorem ValidateVulnerability_child_with_children_witness :
    ValidateVulnerability (vulnerabilityWith "a" Float32.zero
      [vulnerabilityWith "b" Float32.zero [],
       vulnerabilityWith "c" Float32.zero
         [vulnerabilityWith "d" Float32.zero [vulnerabilityWith "e" Float32.zero []]]]) =
      some "child vulnerabilities are not allowed to have children" :=
  ValidateVulnerability_child_with_children _ (by decide)
    ⟨vulnerabilityWith "c" Float32.zero
         [vulnerabilityWith "d" Float32.zero [vulnerabilityWith "e" Float32.zero []]],
      List.mem_cons_of_mem _ (List.mem_cons_self _ _), List.cons_ne_nil _ _⟩

/-- C6: `ValidateVulnerability` returns the same result on two trees of the same shape
whose corresponding nodes agree on whether `Summary` is empty; in particular replacing ID,
Score, CWEID, Description, Details, ImpactDetails, Recommendations, References, Resources
and Attachments of a vulnerability by any values, and its children by children of the
same shape, does not change the result. -/
theorem ValidateVulnerability_depends_on_shape_only :
    (∀ a b : Vulnerability, sameShape a b = true →
      ValidateVulnerability a = ValidateVulnerability b) ∧
    (∀ (v : Vulnerability) (id : String) (score : Float32) (cweid : Nat)
      (description details impactDetails : String) (recommendations references : List String)
      (resources : List ResourcesGroup) (attachments : List Attachment)
      (children : List Vulnerability), sameShape.list v.Vulnerabilities children = true →
      ValidateVulnerability ⟨id, v.Summary, score, cweid, description, details,
        impactDetails, recommendations, references, resources, attachments, children⟩ =
      ValidateVulnerability v) := by
  refine ⟨ValidateVulnerability_sameShape, ?_⟩
  intro v id score cweid description details impactDetails recommendations references
    resources attachments children h
  symm
  apply ValidateVulnerability_sameShape
  obtain ⟨_, s, _, _, _, _, _, _, _, _, _, cs⟩ := v
  simp only [sameShape, Bool.and_eq_true, beq_iff_eq]
  exact ⟨trivial, h⟩

/-- Two groups that differ in every field but agree on the shape and on which summaries
are empty: both fail on the missing summary of the second child. -/
theorem ValidateVulnerability_depends_on_shape_only_witness :
    sameShape
      (vulnerabilityWith "a" Float32.zero
        [vulnerabilityWith "b" Float32.zero [], vulnerabilityWith "" Float32.zero []])
      ⟨"id", "x", SeverityThresholdHigh, 79, "d", "e", "f", ["r"], ["s"],
        [⟨"n", ["h"], [[("h", "v")]]⟩], [⟨"n", "text/plain", [1]⟩],
        [vulnerabilityWith "y" SeverityThresholdLow [],
         ⟨"id2", "", SeverityThresholdLow, 1, "d", "", "", [], [], [], [], []⟩]⟩ = true ∧
    ValidateVulnerability
      (vulnerabilityWith "a" Float32.zero
        [vulnerabilityWith "b" Float32.zero [], vulnerabilityWith "" Float32.zero []]) =
    ValidateVulnerability
      ⟨"id", "x", SeverityThresholdHigh, 79, "d", "e", "f", ["r"], ["s"],
        [⟨"n", ["h"], [[("h", "v")]]⟩], [⟨"n", "text/plain", [1]⟩],
        [vulnerabilityWith "y" SeverityThresholdLow [],
         ⟨"id2", "", SeverityThresholdLow, 1, "d", "", "", [], [], [], [], []⟩]⟩ :=
  ⟨by decide, ValidateVulnerability_depends_on_shape_only.1 _ _ (by decide)⟩

/-! ## Comparison of float32 values -/

theorem Float32.le_iff (x y : Float32) :
    x.le y = true ↔ x.isNaN = false ∧ y.isNaN = false ∧ x.key ≤ y.key := by
  simp [Float32.le, and_assoc]

theorem Float32.lt_iff (x y : Float32) :
    x.lt y = true ↔ x.isNaN = false ∧ y.isNaN = false ∧ x.key < y.key := by
  simp [Float32.lt, and_assoc]

theorem Float32.gt_iff (x y : Float32) :
    x.gt y = true ↔ x.isNaN = false ∧ y.isNaN = false ∧ y.key < x.key := by
  rw [Float32.gt, Float32.lt_iff]
  tauto

theorem Float32.le_eq_false_iff (x y : Float32) :
    x.le y = false ↔ (x.isNaN = true ∨ y.isNaN = true ∨ y.key < x.key) := by
  rw [← Bool.not_eq_true, Float32.le_iff]
  cases x.isNaN <;> cases y.isNaN <;> simp

theorem Float32.le_eq_false_of_key_lt {x y : Float32} (h : y.key < x.key) :
    x.le y = false := by
  rw [Float32.le_eq_false_iff]
  exact Or.inr (Or.inr h)

theorem SeverityThresholdNone_key : SeverityThresholdNone.key = 0 := by decide
theorem SeverityThresholdLow_key : SeverityThresholdLow.key = 1081711002 := by decide
theorem SeverityThresholdMedium_key : SeverityThresholdMedium.key = 1088212173 := by decide
theorem SeverityThresholdHigh_key : SeverityThresholdHigh.key = 1091462758 := by decide

/-! ## RankSeverity and ScoreSeverity -/

/-- C7: `RankSeverity s` is SeverityNone if `s <= 0.0`, SeverityLow if `0.0 < s <= 3.9`,
SeverityMedium if `3.9 < s <= 6.9`, SeverityHigh if `6.9 < s <= 8.9` and SeverityCritical
if `s > 8.9`, the comparisons being those of `float32` and the bounds the threshold
constants; a negative score ranks as SeverityNone. -/
theorem RankSeverity_buckets (s : Float32) :
    (s.le SeverityThresholdNone = true → RankSeverity s = SeverityNone) ∧
    (SeverityThresholdNone.lt s = true → s.le SeverityThresholdLow = true →
      RankSeverity s = SeverityLow) ∧
    (SeverityThresholdLow.lt s = true → s.le SeverityThresholdMedium = true →
      RankSeverity s = SeverityMedium) ∧
    (SeverityThresholdMedium.lt s = true → s.le SeverityThresholdHigh = true →
      RankSeverity s = SeverityHigh) ∧
    (s.gt SeverityThresholdHigh = true → RankSeverity s = SeverityCritical) ∧
    (s.lt Float32.zero = true → RankSeverity s = SeverityNone) := by
  have kN := SeverityThresholdNone_key
  have kL := SeverityThresholdLow_key
  have kM := SeverityThresholdMedium_key
  have kH := SeverityThresholdHigh_key
  have kZ : Float32.zero.key = 0 := SeverityThresholdNone_key
  refine ⟨?_, ?_, ?_, ?_, ?_, ?_⟩
  · intro h
    simp [RankSeverity, h]
  · intro h1 h2
    rw [Float32.lt_iff] at h1
    have h0 : s.le SeverityThresholdNone = false :=
      Float32.le_eq_false_of_key_lt (by omega)
    simp [RankSeverity, h0, h2]
  · intro h1 h2
    rw [Float32.lt_iff] at h1
    have h0 : s.le SeverityThresholdNone = false :=
      Float32.le_eq_false_of_key_lt (by omega)
    have hL : s.le SeverityThresholdLow = false :=
      Float32.le_eq_false_of_key_lt (by omega)
    simp [RankSeverity, h0, hL, h2]
  · intro h1 h2
    rw [Float32.lt_iff] at h1
    have h0 : s.le SeverityThresholdNone = false :=
      Float32.le_eq_false_of_key_lt (by omega)
    have hL : s.le SeverityThresholdLow = false :=
      Float32.le_eq_false_of_key_lt (by omega)
    have hM : s.le SeverityThresholdMedium = false :=
      Float32.le_eq_false_of_key_lt (by omega)
    simp [RankSeverity, h0, hL, hM, h2]
  · intro h1
    rw [Float32.gt_iff] at h1
    have h0 : s.le SeverityThresholdNone = false :=
      Float32.le_eq_false_of_key_lt (by omega)
    have hL : s.le SeverityThresholdLow = false :=
      Float32.le_eq_false_of_key_lt (by omega)
    have hM : s.le SeverityThresholdMedium = false :=
      Float32.le_eq_false_of_key_lt (by omega)
    have hH : s.le SeverityThresholdHigh = false :=
      Float32.le_eq_false_of_key_lt (by omega)
    simp [RankSeverity, h0, hL, hM, hH]
  · intro h1
    rw [Float32.lt_iff] at h1
    have h0 : s.le SeverityThresholdNone = true := by
      rw [Float32.le_iff]
      exact ⟨h1.1, rfl, by omega⟩
    simp [RankSeverity, h0]

/-- The score 5.0 (bits `0x40A00000`) lies above 3.9 and not above 6.9. -/
theorem RankSeverity_buckets_witness :
    SeverityThresholdLow.lt ⟨false, 129, 2097152⟩ = true ∧
    Float32.le ⟨false, 129, 2097152⟩ SeverityThresholdMedium = true ∧
    RankSeverity ⟨false, 129, 2097152⟩ = SeverityMedium :=
  ⟨by decide, by decide,
    (RankSeverity_buckets ⟨false, 129, 2097152⟩).2.2.1 (by decide) (by decide)⟩

/-- C8: `ScoreSeverity` returns 0.0 for SeverityNone, 3.9 for SeverityLow, 6.9 for
SeverityMedium, 8.9 for SeverityHigh, 10.0 for SeverityCritical and 10.0 for every rank
that is none of these five constants. -/
theorem ScoreSeverity_table :
    ScoreSeverity SeverityNone = SeverityThresholdNone ∧
    ScoreSeverity SeverityLow = SeverityThresholdLow ∧
    ScoreSeverity SeverityMedium = SeverityThresholdMedium ∧
    ScoreSeverity SeverityHigh = SeverityThresholdHigh ∧
    ScoreSeverity SeverityCritical = SeverityThresholdCritical ∧
    (∀ r : SeverityRank, r ≠ SeverityNone → r ≠ SeverityLow → r ≠ SeverityMedium →
      r ≠ SeverityHigh → r ≠ SeverityCritical →
      ScoreSeverity r = SeverityThresholdCritical) := by
  refine ⟨by decide, by decide, by decide, by decide, by decide, ?_⟩
  intro r h0 h1 h2 h3 h4
  simp [ScoreSeverity, h0, h1, h2, h3, h4]

/-- The rank 5 of the test `SeverityUnknown` and a negative rank. -/
theorem ScoreSeverity_table_witness :
    ScoreSeverity 5 = SeverityThresholdCritical ∧
    ScoreSeverity (-1) = SeverityThresholdCritical :=
  ⟨ScoreSeverity_table.2.2.2.2.2 5 (by decide) (by decide) (by decide) (by decide)
      (by decide),
    ScoreSeverity_table.2.2.2.2.2 (-1) (by decide) (by decide) (by decide) (by decide)
      (by decide)⟩

/-- C9: for each of the five defined ranks `r`, `RankSeverity (ScoreSeverity r) = r`. -/
theorem RankSeverity_ScoreSeverity :
    ∀ r : SeverityRank,
      r = SeverityNone ∨ r = SeverityLow ∨ r = SeverityMedium ∨ r = SeverityHigh ∨
        r = SeverityCritical →
      RankSeverity (ScoreSeverity r) = r := by
  intro r h
  rcases h with h | h | h | h | h <;> subst h <;> decide

/-- The rank SeverityHigh: its score 8.9 ranks as SeverityHigh. -/
theorem RankSeverity_ScoreSeverity_witness :
    RankSeverity (ScoreSeverity SeverityHigh) = SeverityHigh :=
  RankSeverity_ScoreSeverity SeverityHigh (Or.inr (Or.inr (Or.inr (Or.inl rfl))))

/-! ## The library insertion sort meets the contract of `sort.Sort` -/

theorem insertionSort.inner_perm (less : Vulnerability → Vulnerability → Bool)
    (x : Vulnerability) (before : List Vulnerability) :
    (insertionSort.inner less x before).Perm (x :: before) := by
  induction before with
  | nil => exact List.Perm.refl _
  | cons y rest ih =>
    rw [insertionSort.inner]
    by_cases h : less x y = true
    · rw [if_pos h]
      exact (List.Perm.cons y ih).trans (List.Perm.swap x y rest)
    · rw [if_neg h]

theorem insertionSort.foldl_perm (less : Vulnerability → Vulnerability → Bool)
    (l acc : List Vulnerability) :
    (l.foldl (fun before x => insertionSort.inner less x before) acc).Perm (l ++ acc) := by
  induction l generalizing acc with
  | nil => exact List.Perm.refl _
  | cons x rest ih =>
    rw [List.foldl_cons]
    refine (ih _).trans ?_
    refine (List.Perm.append_left rest (insertionSort.inner_perm less x acc)).trans ?_
    exact List.perm_middle

theorem insertionSort_perm (less : Vulnerability → Vulnerability → Bool)
    (l : List Vulnerability) : (insertionSort less l).Perm l := by
  rw [insertionSort]
  refine (List.reverse_perm _).trans ?_
  simpa using insertionSort.foldl_perm less l []

theorem insertionSort.inner_pairwise {less : Vulnerability → Vulnerability → Bool}
    {L : List Vulnerability} (hL : TransitiveOrdering less L) {x : Vulnerability}
    (hx : x ∈ L) (before : List Vulnerability) (hb : ∀ y ∈ before, y ∈ L)
    (hp : before.Pairwise (fun a b => less a b = false)) :
    (insertionSort.inner less x before).Pairwise (fun a b => less a b = false) := by
  obtain ⟨hirr, htr, hneg⟩ := hL
  induction before with
  | nil => simp [insertionSort.inner]
  | cons y rest ih =>
    have hy : y ∈ L := hb y (List.mem_cons_self _ _)
    have hrest : ∀ z ∈ rest, z ∈ L := fun z hz => hb z (List.mem_cons_of_mem _ hz)
    rw [List.pairwise_cons] at hp
    rw [insertionSort.inner]
    by_cases h : less x y = true
    · rw [if_pos h, List.pairwise_cons]
      refine ⟨?_, ih hrest hp.2⟩
      intro z hz
      rcases List.mem_cons.mp ((insertionSort.inner_perm less x rest).mem_iff.mp hz)
        with rfl | hz
      · cases hyz : less y z with
        | false => rfl
        | true =>
          have := htr z hx y hy z hx h hyz
          rw [hirr z hx] at this
          exact absurd this (by decide)
      · exact hp.1 z hz
    · rw [if_neg h, List.pairwise_cons]
      have hxy : less x y = false := by simpa using h
      refine ⟨?_, List.pairwise_cons.mpr hp⟩
      intro z hz
      rcases List.mem_cons.mp hz with rfl | hz
      · exact hxy
      · exact hneg x hx y hy z (hrest z hz) hxy (hp.1 z hz)

theorem insertionSort.foldl_pairwise {less : Vulnerability → Vulnerability → Bool}
    {L : List Vulnerability} (hL : TransitiveOrdering less L)
    (l acc : List Vulnerability) (hl : ∀ y ∈ l, y ∈ L) (hacc : ∀ y ∈ acc, y ∈ L)
    (hp : acc.Pairwise (fun a b => less a b = false)) :
    (l.foldl (fun before x => insertionSort.inner less x before) acc).Pairwise
      (fun a b => less a b = false) := by
  induction l generalizing acc with
  | nil => exact hp
  | cons x rest ih =>
    rw [List.foldl_cons]
    have hx : x ∈ L := hl x (List.mem_cons_self _ _)
    refine ih _ (fun y hy => hl y (List.mem_cons_of_mem _ hy)) ?_
      (insertionSort.inner_pairwise hL hx acc hacc hp)
    intro y hy
    rcases List.mem_cons.mp ((insertionSort.inner_perm less x acc).mem_iff.mp hy)
      with rfl | hy
    · exact hx
    · exact hacc y hy

theorem insertionSort_sorted (less : Vulnerability → Vulnerability → Bool)
    (l : List Vulnerability) (hL : TransitiveOrdering less l) :
    (insertionSort less l).Pairwise (fun a b => less b a = false) := by
  rw [insertionSort, List.pairwise_reverse]
  exact insertionSort.foldl_pairwise hL l [] (fun y hy => hy) (by simp) List.Pairwise.nil

/-- The insertion sort that `sort.Sort` runs on short slices, with the proof that it
meets the contract. -/
def goInsertionSort : SortAlgorithm :=
  ⟨insertionSort, insertionSort_perm, insertionSort_sorted⟩

/-! ## AggregateScore -/

theorem ByScore.Less_eq_false_iff {a b : Vulnerability}
    (ha : a.Score.isNaN = false) (hb : b.Score.isNaN = false) :
    ByScore.Less a b = false ↔ a.Score.key ≤ b.Score.key := by
  rw [ByScore.Less, ← Bool.not_eq_true, Float32.gt_iff]
  simp [ha, hb]

/-- On scores that are not NaN, `ByScore.Less` meets the requirement of `sort.Interface`. -/
theorem ByScore.Less_transitiveOrdering (l : List Vulnerability)
    (h : ∀ v ∈ l, v.Score.isNaN = false) : TransitiveOrdering ByScore.Less l := by
  refine ⟨?_, ?_, ?_⟩
  · intro a ha
    rw [ByScore.Less_eq_false_iff (h a ha) (h a ha)]
  · intro a _ b _ c _ hab hbc
    rw [ByScore.Less, Float32.gt_iff] at *
    exact ⟨hab.1, hbc.2.1, by omega⟩
  · intro a ha b hb c hc hab hbc
    rw [ByScore.Less_eq_false_iff (h a ha) (h b hb)] at hab
    rw [ByScore.Less_eq_false_iff (h b hb) (h c hc)] at hbc
    rw [ByScore.Less_eq_false_iff (h a ha) (h c hc)]
    omega

theorem AggregateScore_nil (S : SortAlgorithm) : AggregateScore S [] = (Float32.zero, []) := by
  simp [AggregateScore]

theorem AggregateScore_of_ne_nil (S : SortAlgorithm) {vs : List Vulnerability}
    (h : vs ≠ []) :
    ∃ v rest, S.sort ByScore.Less vs = v :: rest ∧
      AggregateScore S vs = (v.Score, v :: rest) := by
  have hlen : ¬ vs.length = 0 := fun h0 => h (List.length_eq_zero.mp h0)
  have hne := S.sort_ne_nil ByScore.Less hlen
  obtain ⟨v, rest, hs⟩ := List.exists_cons_of_ne_nil hne
  refine ⟨v, rest, hs, ?_⟩
  have hhead : ∀ (l : List Vulnerability) (hl : l ≠ []), l = v :: rest →
      ((l.head hl).Score, l) = (v.Score, v :: rest) := by
    intro l hl e
    subst e
    rfl
  rw [AggregateScore, dif_neg hlen]
  exact hhead _ hne hs

/-- C10, as amended: `AggregateScore` returns 0.0 for the empty sequence; for every
non-empty sequence the result is the `Score` of some element, and when no `Score` of the
sequence is NaN the result is greater than or equal to the `Score` of every element, so
that it is the maximum. This holds for every sort that meets the contract of
`sort.Sort`. -/
theorem AggregateScore_maximum (S : SortAlgorithm) (vs : List Vulnerability) :
    (vs = [] → (AggregateScore S vs).1 = Float32.zero) ∧
    (vs ≠ [] → ∃ v ∈ vs, (AggregateScore S vs).1 = v.Score) ∧
    (vs ≠ [] → (∀ v ∈ vs, v.Score.isNaN = false) →
      ∀ v ∈ vs, ((AggregateScore S vs).1).ge v.Score = true) := by
  refine ⟨?_, ?_, ?_⟩
  · intro h
    rw [h, AggregateScore_nil]
  · intro h
    obtain ⟨m, rest, hs, hr⟩ := AggregateScore_of_ne_nil S h
    refine ⟨m, ?_, by rw [hr]⟩
    exact (S.perm ByScore.Less vs).mem_iff.mp (by rw [hs]; exact List.mem_cons_self _ _)
  · intro h hnan v hv
    obtain ⟨m, rest, hs, hr⟩ := AggregateScore_of_ne_nil S h
    have hsorted := S.sorted ByScore.Less vs (ByScore.Less_transitiveOrdering vs hnan)
    rw [hs, List.pairwise_cons] at hsorted
    have hm : m ∈ vs :=
      (S.perm ByScore.Less vs).mem_iff.mp (by rw [hs]; exact List.mem_cons_self _ _)
    have hv2 : v ∈ m :: rest := by
      rw [← hs]
      exact (S.perm ByScore.Less vs).mem_iff.mpr hv
    rw [hr, Float32.ge, Float32.le_iff]
    refine ⟨hnan v hv, hnan m hm, ?_⟩
    rcases List.mem_cons.mp hv2 with rfl | hv3
    · exact le_refl _
    · exact (ByScore.Less_eq_false_iff (hnan v hv) (hnan m hm)).mp (hsorted.1 v hv3)

/-- The children of the test `MultipleVulnerabilitiesDifferentScores`, of scores 3.9, 6.9
and 8.9, sorted by the library insertion sort: the result 8.9 is greater than or equal to
each score. -/
theorem AggregateScore_maximum_witness :
    [vulnerabilityWith "a" SeverityThresholdLow [],
      vulnerabilityWith "b" SeverityThresholdMedium [],
      vulnerabilityWith "c" SeverityThresholdHigh []] ≠ [] ∧
    (∀ v ∈ [vulnerabilityWith "a" SeverityThresholdLow [],
      vulnerabilityWith "b" SeverityThresholdMedium [],
      vulnerabilityWith "c" SeverityThresholdHigh []], v.Score.isNaN = false) ∧
    (AggregateScore goInsertionSort [vulnerabilityWith "a" SeverityThresholdLow [],
      vulnerabilityWith "b" SeverityThresholdMedium [],
      vulnerabilityWith "c" SeverityThresholdHigh []]).1 = SeverityThresholdHigh ∧
    ∀ v ∈ [vulnerabilityWith "a" SeverityThresholdLow [],
      vulnerabilityWith "b" SeverityThresholdMedium [],
      vulnerabilityWith "c" SeverityThresholdHigh []],
      ((AggregateScore goInsertionSort [vulnerabilityWith "a" SeverityThresholdLow [],
        vulnerabilityWith "b" SeverityThresholdMedium [],
        vulnerabilityWith "c" SeverityThresholdHigh []]).1).ge v.Score = true :=
  ⟨List.cons_ne_nil _ _, by decide, by decide,
    (AggregateScore_maximum goInsertionSort _).2.2 (List.cons_ne_nil _ _) (by decide)⟩

/-- C10, counterexample: on the one-element sequence whose score is a NaN (bits
`0x7FC00000`) the result is that NaN, which is not greater than or equal to the `Score`
of the element, since every comparison with a NaN is false. -/
theorem AggregateScore_maximum_counterexample :
    ¬ ((∃ v ∈ [vulnerabilityWith "a" ⟨false, 255, 4194304⟩ []],
        (AggregateScore goInsertionSort
          [vulnerabilityWith "a" ⟨false, 255, 4194304⟩ []]).1 = v.Score) ∧
      ∀ v ∈ [vulnerabilityWith "a" ⟨false, 255, 4194304⟩ []],
        ((AggregateScore goInsertionSort
          [vulnerabilityWith "a" ⟨false, 255, 4194304⟩ []]).1).ge v.Score = true) := by
  intro h
  have h1 := h.2 (vulnerabilityWith "a" ⟨false, 255, 4194304⟩ []) (List.mem_singleton.mpr rfl)
  revert h1
  decide

/-! ## AggregateScore and the slice of the caller -/

theorem AggregateScore_snd (S : SortAlgorithm) (vs : List Vulnerability) :
    (AggregateScore S vs).2 = if vs.length = 0 then vs else S.sort ByScore.Less vs := by
  by_cases h : vs = []
  · subst h
    rw [AggregateScore_nil]
    rfl
  · obtain ⟨m, rest, hs, hr⟩ := AggregateScore_of_ne_nil S h
    rw [hr, if_neg (fun h0 => h (List.length_eq_zero.mp h0)), hs]

theorem AggregateScore_snd_perm (S : SortAlgorithm) (vs : List Vulnerability) :
    (AggregateScore S vs).2.Perm vs := by
  rw [AggregateScore_snd]
  by_cases h : vs.length = 0
  · rw [if_pos h]
  · rw [if_neg h]
    exact S.perm ByScore.Less vs

theorem AggregateScore_fst_mem (S : SortAlgorithm) {vs : List Vulnerability} (h : vs ≠ []) :
    ∃ v ∈ vs, (AggregateScore S vs).1 = v.Score := by
  obtain ⟨m, rest, hs, hr⟩ := AggregateScore_of_ne_nil S h
  refine ⟨m, ?_, by rw [hr]⟩
  exact (S.perm ByScore.Less vs).mem_iff.mp (by rw [hs]; exact List.mem_cons_self _ _)

theorem AggregateScore_fst_ge (S : SortAlgorithm) {vs : List Vulnerability} (h : vs ≠ [])
    (hnan : ∀ v ∈ vs, v.Score.isNaN = false) :
    ∀ v ∈ vs, ((AggregateScore S vs).1).ge v.Score = true := by
  intro v hv
  obtain ⟨m, rest, hs, hr⟩ := AggregateScore_of_ne_nil S h
  have hsorted := S.sorted ByScore.Less vs (ByScore.Less_transitiveOrdering vs hnan)
  rw [hs, List.pairwise_cons] at hsorted
  have hm : m ∈ vs :=
    (S.perm ByScore.Less vs).mem_iff.mp (by rw [hs]; exact List.mem_cons_self _ _)
  have hv2 : v ∈ m :: rest := by
    rw [← hs]
    exact (S.perm ByScore.Less vs).mem_iff.mpr hv
  rw [hr, Float32.ge, Float32.le_iff]
  refine ⟨hnan v hv, hnan m hm, ?_⟩
  rcases List.mem_cons.mp hv2 with rfl | hv3
  · exact le_refl _
  · exact (ByScore.Less_eq_false_iff (hnan v hv) (hnan m hm)).mp (hsorted.1 v hv3)

/-- C11, as amended: after the package-level `AggregateScore` the sequence passed in holds
the same elements with the same multiplicities, in an order that may differ from the one
before the call: when no `Score` is NaN the elements are in descending order of `Score`.
The empty sequence is left as it is. -/
theorem AggregateScore_reorders_argument (S : SortAlgorithm) (vs : List Vulnerability) :
    (AggregateScore S vs).2.Perm vs ∧
    ((∀ v ∈ vs, v.Score.isNaN = false) →
      (AggregateScore S vs).2.Pairwise (fun a b => a.Score.ge b.Score = true)) ∧
    (vs = [] → (AggregateScore S vs).2 = []) := by
  refine ⟨AggregateScore_snd_perm S vs, ?_, ?_⟩
  · intro hnan
    rw [AggregateScore_snd]
    by_cases h : vs.length = 0
    · rw [if_pos h, List.length_eq_zero.mp h]
      exact List.Pairwise.nil
    · rw [if_neg h]
      have hsorted := S.sorted ByScore.Less vs (ByScore.Less_transitiveOrdering vs hnan)
      have hmem : ∀ x ∈ S.sort ByScore.Less vs, x.Score.isNaN = false :=
        fun x hx => hnan x ((S.perm ByScore.Less vs).mem_iff.mp hx)
      refine List.Pairwise.imp_of_mem ?_ hsorted
      intro a b ha hb hab
      rw [Float32.ge, Float32.le_iff]
      exact ⟨hmem b hb, hmem a ha, (ByScore.Less_eq_false_iff (hmem b hb) (hmem a ha)).mp hab⟩
  · intro h
    rw [h, AggregateScore_nil]

/-- The scores 3.9, 8.9, 6.9 in this order: the slice holds them in the order 8.9, 6.9,
3.9 after the call. -/
theorem AggregateScore_reorders_argument_witness :
    (∀ v ∈ [vulnerabilityWith "a" SeverityThresholdLow [],
      vulnerabilityWith "b" SeverityThresholdHigh [],
      vulnerabilityWith "c" SeverityThresholdMedium []], v.Score.isNaN = false) ∧
    ((AggregateScore goInsertionSort [vulnerabilityWith "a" SeverityThresholdLow [],
      vulnerabilityWith "b" SeverityThresholdHigh [],
      vulnerabilityWith "c" SeverityThresholdMedium []]).2.map fun v => v.Summary) =
      ["b", "c", "a"] ∧
    (AggregateScore goInsertionSort [vulnerabilityWith "a" SeverityThresholdLow [],
      vulnerabilityWith "b" SeverityThresholdHigh [],
      vulnerabilityWith "c" SeverityThresholdMedium []]).2.Pairwise
        (fun a b => a.Score.ge b.Score = true) :=
  ⟨by decide, by decide,
    (AggregateScore_reorders_argument goInsertionSort _).2.1 (by decide)⟩

/-- C11, counterexample: on the sequence of a vulnerability of score 3.9 followed by one of
score 8.9 the slice holds the two in the opposite order after the call. -/
theorem AggregateScore_reorders_argument_counterexample :
    ¬ ((AggregateScore goInsertionSort
        [vulnerabilityWith "a" SeverityThresholdLow [],
         vulnerabilityWith "b" SeverityThresholdHigh []]).2 =
        [vulnerabilityWith "a" SeverityThresholdLow [],
         vulnerabilityWith "b" SeverityThresholdHigh []]) := by
  intro h
  have h2 := congrArg (List.map fun v => v.Summary) h
  revert h2
  decide

/-! ## Vulnerability.AggregateScore -/

theorem Vulnerability.AggregateScore_eq_of_children (S : SortAlgorithm) (v : Vulnerability)
    (h : v.Vulnerabilities ≠ []) :
    (v.AggregateScore S).Score = (VulcanReport.AggregateScore S v.Vulnerabilities).1 ∧
    (v.AggregateScore S).Vulnerabilities =
      (VulcanReport.AggregateScore S v.Vulnerabilities).2 := by
  have hlen : v.Vulnerabilities.length > 0 := List.length_pos.mpr h
  simp [Vulnerability.AggregateScore, hlen]

theorem Vulnerability.AggregateScore_eq_of_no_children (S : SortAlgorithm) (v : Vulnerability)
    (h : v.Vulnerabilities = []) : v.AggregateScore S = v := by
  simp [Vulnerability.AggregateScore, h]

/-- C12, as amended: for a vulnerability with one or more children, after
`Vulnerability.AggregateScore` its `Score` is the `Score` of one of its direct children,
whatever its `Score` was before, and when no child has a NaN `Score` it is greater than or
equal to the `Score` of every direct child, so that it is their maximum; for a
vulnerability with no children the `Score` is unchanged. -/
theorem Vulnerability_AggregateScore_maximum (S : SortAlgorithm) (v : Vulnerability) :
    (v.Vulnerabilities ≠ [] →
      ∃ c ∈ v.Vulnerabilities, (v.AggregateScore S).Score = c.Score) ∧
    (v.Vulnerabilities ≠ [] → (∀ c ∈ v.Vulnerabilities, c.Score.isNaN = false) →
      ∀ c ∈ v.Vulnerabilities, ((v.AggregateScore S).Score).ge c.Score = true) ∧
    (v.Vulnerabilities = [] → (v.AggregateScore S).Score = v.Score) := by
  refine ⟨?_, ?_, ?_⟩
  · intro h
    rw [(Vulnerability.AggregateScore_eq_of_children S v h).1]
    exact AggregateScore_fst_mem S h
  · intro h hnan
    rw [(Vulnerability.AggregateScore_eq_of_children S v h).1]
    exact AggregateScore_fst_ge S h hnan
  · intro h
    rw [Vulnerability.AggregateScore_eq_of_no_children S v h]

/-- The test `MultipleVulnerabilitiesDifferentScores` with a parent of score 10: after the
call the score of the parent is 8.9. -/
theorem Vulnerability_AggregateScore_maximum_witness :
    ((vulnerabilityWith "p" SeverityThresholdCritical
      [vulnerabilityWith "a" SeverityThresholdLow [],
       vulnerabilityWith "b" SeverityThresholdMedium [],
       vulnerabilityWith "c" SeverityThresholdHigh []]).AggregateScore goInsertionSort).Score
      = SeverityThresholdHigh ∧
    ∀ c ∈ (vulnerabilityWith "p" SeverityThresholdCritical
      [vulnerabilityWith "a" SeverityThresholdLow [],
       vulnerabilityWith "b" SeverityThresholdMedium [],
       vulnerabilityWith "c" SeverityThresholdHigh []]).Vulnerabilities,
      (((vulnerabilityWith "p" SeverityThresholdCritical
        [vulnerabilityWith "a" SeverityThresholdLow [],
         vulnerabilityWith "b" SeverityThresholdMedium [],
         vulnerabilityWith "c" SeverityThresholdHigh []]).AggregateScore
          goInsertionSort).Score).ge c.Score = true :=
  ⟨by decide,
    (Vulnerability_AggregateScore_maximum goInsertionSort _).2.1 (List.cons_ne_nil _ _)
      (by decide)⟩

/-- C12, counterexample: a parent of score 8.9 whose only child has a NaN score (bits
`0x7FC00000`): after the call the score of the parent is that NaN, which is not greater
than or equal to the score of the child. -/
theorem Vulnerability_AggregateScore_maximum_counterexample :
    ¬ ((∃ c ∈ (vulnerabilityWith "p" SeverityThresholdHigh
          [vulnerabilityWith "c" ⟨false, 255, 4194304⟩ []]).Vulnerabilities,
        ((vulnerabilityWith "p" SeverityThresholdHigh
          [vulnerabilityWith "c" ⟨false, 255, 4194304⟩ []]).AggregateScore
            goInsertionSort).Score = c.Score) ∧
      ∀ c ∈ (vulnerabilityWith "p" SeverityThresholdHigh
          [vulnerabilityWith "c" ⟨false, 255, 4194304⟩ []]).Vulnerabilities,
        (((vulnerabilityWith "p" SeverityThresholdHigh
          [vulnerabilityWith "c" ⟨false, 255, 4194304⟩ []]).AggregateScore
            goInsertionSort).Score).ge c.Score = true) := by
  intro h
  have h1 := h.2 (vulnerabilityWith "c" ⟨false, 255, 4194304⟩ []) (List.mem_singleton.mpr rfl)
  revert h1
  decide

/-! ## SecurityStatus -/

theorem statusBoundA_key : statusBoundA.key = 1073741824 := by decide
theorem statusBoundB_key : statusBoundB.key = 1080033280 := by decide
theorem statusBoundC_key : statusBoundC.key = 1084227584 := by decide
theorem statusBoundD_key : statusBoundD.key = 1087373312 := by decide
theorem statusBoundE_key : statusBoundE.key = 1090519040 := by decide

/-- The bounds of `SecurityStatus` are the numbers 2, 3.5, 5, 6.5 and 8. -/
theorem statusBound_exact :
    statusBoundA.toRat = 2 ∧ statusBoundB.toRat = 7 / 2 ∧ statusBoundC.toRat = 5 ∧
    statusBoundD.toRat = 13 / 2 ∧ statusBoundE.toRat = 8 := by
  have h1 : Float32.scaled ⟨false, 128, 0⟩ = 8388608 * 2 ^ 128 := by decide
  have h2 : Float32.scaled ⟨false, 128, 6291456⟩ = 14680064 * 2 ^ 128 := by decide
  have h3 : Float32.scaled ⟨false, 129, 2097152⟩ = 10485760 * 2 ^ 129 := by decide
  have h4 : Float32.scaled ⟨false, 129, 5242880⟩ = 13631488 * 2 ^ 129 := by decide
  have h5 : Float32.scaled ⟨false, 130, 0⟩ = 8388608 * 2 ^ 130 := by decide
  simp only [Float32.toRat, statusBoundA, statusBoundB, statusBoundC, statusBoundD,
    statusBoundE, h1, h2, h3, h4, h5]
  norm_num

theorem Float32.lt_eq_false_of_key_le {x y : Float32} (h : y.key ≤ x.key) :
    x.lt y = false := by
  rw [← Bool.not_eq_true, Float32.lt_iff]
  intro h1
  omega

/-- C13: `SecurityStatus s` is "A" if `s < 2.0`, "B" if `2.0 <= s <= 3.5`, "C" if
`3.5 < s <= 5.0`, "D" if `5.0 < s <= 6.5`, "E" if `6.5 < s <= 8.0` and "F" if `s > 8.0`,
the comparisons being those of `float32`; the result is always one of the six letters. -/
theorem SecurityStatus_buckets (s : Float32) :
    (s.lt statusBoundA = true → SecurityStatus s = "A") ∧
    (statusBoundA.le s = true → s.le statusBoundB = true → SecurityStatus s = "B") ∧
    (statusBoundB.lt s = true → s.le statusBoundC = true → SecurityStatus s = "C") ∧
    (statusBoundC.lt s = true → s.le statusBoundD = true → SecurityStatus s = "D") ∧
    (statusBoundD.lt s = true → s.le statusBoundE = true → SecurityStatus s = "E") ∧
    (s.gt statusBoundE = true → SecurityStatus s = "F") ∧
    SecurityStatus s ∈ ["A", "B", "C", "D", "E", "F"] := by
  have kA := statusBoundA_key
  have kB := statusBoundB_key
  have kC := statusBoundC_key
  have kD := statusBoundD_key
  have kE := statusBoundE_key
  refine ⟨?_, ?_, ?_, ?_, ?_, ?_, ?_⟩
  · intro h
    simp [SecurityStatus, h]
  · intro h1 h2
    rw [Float32.le_iff] at h1
    have hA : s.lt statusBoundA = false := Float32.lt_eq_false_of_key_le h1.2.2
    simp [SecurityStatus, hA, h2]
  · intro h1 h2
    rw [Float32.lt_iff] at h1
    have hA : s.lt statusBoundA = false := Float32.lt_eq_false_of_key_le (by omega)
    have hB : s.le statusBoundB = false := Float32.le_eq_false_of_key_lt (by omega)
    simp [SecurityStatus, hA, hB, h2]
  · intro h1 h2
    rw [Float32.lt_iff] at h1
    have hA : s.lt statusBoundA = false := Float32.lt_eq_false_of_key_le (by omega)
    have hB : s.le statusBoundB = false := Float32.le_eq_false_of_key_lt (by omega)
    have hC : s.le statusBoundC = false := Float32.le_eq_false_of_key_lt (by omega)
    simp [SecurityStatus, hA, hB, hC, h2]
  · intro h1 h2
    rw [Float32.lt_iff] at h1
    have hA : s.lt statusBoundA = false := Float32.lt_eq_false_of_key_le (by omega)
    have hB : s.le statusBoundB = false := Float32.le_eq_false_of_key_lt (by omega)
    have hC : s.le statusBoundC = false := Float32.le_eq_false_of_key_lt (by omega)
    have hD : s.le statusBoundD = false := Float32.le_eq_false_of_key_lt (by omega)
    simp [SecurityStatus, hA, hB, hC, hD, h2]
  · intro h1
    rw [Float32.gt_iff] at h1
    have hA : s.lt statusBoundA = false := Float32.lt_eq_false_of_key_le (by omega)
    have hB : s.le statusBoundB = false := Float32.le_eq_false_of_key_lt (by omega)
    have hC : s.le statusBoundC = false := Float32.le_eq_false_of_key_lt (by omega)
    have hD : s.le statusBoundD = false := Float32.le_eq_false_of_key_lt (by omega)
    have hE : s.le statusBoundE = false := Float32.le_eq_false_of_key_lt (by omega)
    simp [SecurityStatus, hA, hB, hC, hD, hE]
  · unfold SecurityStatus
    split_ifs <;> simp

/-- The score 2.0 itself, the lower end of the bucket "B", and the score 3.9. -/
theorem SecurityStatus_buckets_witness :
    SecurityStatus statusBoundA = "B" ∧
    statusBoundB.lt SeverityThresholdLow = true ∧
    SeverityThresholdLow.le statusBoundC = true ∧
    SecurityStatus SeverityThresholdLow = "C" :=
  ⟨(SecurityStatus_buckets statusBoundA).2.1 (by decide) (by decide), by decide, by decide,
    (SecurityStatus_buckets SeverityThresholdLow).2.2.1 (by decide) (by decide)⟩

/-! ## AddVulnerabilities -/

/-- C14: `ResultData.AddVulnerabilities` and `Vulnerability.AddVulnerabilities` leave the
receiver with `Vulnerabilities` equal to the old sequence followed by the arguments in the
given order and with every other field unchanged; with no argument the receiver is
unchanged. -/
theorem AddVulnerabilities_appends :
    (∀ (r : ResultData) (vs : List Vulnerability),
      (r.AddVulnerabilities vs).Vulnerabilities = r.Vulnerabilities ++ vs ∧
      (r.AddVulnerabilities vs).Data = r.Data ∧
      (r.AddVulnerabilities vs).Notes = r.Notes ∧
      (r.AddVulnerabilities vs).Error = r.Error ∧
      (r.AddVulnerabilities vs).NotApplicable = r.NotApplicable) ∧
    (∀ r : ResultData, r.AddVulnerabilities [] = r) ∧
    (∀ (v : Vulnerability) (vs : List Vulnerability),
      (v.AddVulnerabilities vs).Vulnerabilities = v.Vulnerabilities ++ vs ∧
      (v.AddVulnerabilities vs).ID = v.ID ∧
      (v.AddVulnerabilities vs).Summary = v.Summary ∧
      (v.AddVulnerabilities vs).Score = v.Score ∧
      (v.AddVulnerabilities vs).CWEID = v.CWEID ∧
      (v.AddVulnerabilities vs).Description = v.Description ∧
      (v.AddVulnerabilities vs).Details = v.Details ∧
      (v.AddVulnerabilities vs).ImpactDetails = v.ImpactDetails ∧
      (v.AddVulnerabilities vs).Recommendations = v.Recommendations ∧
      (v.AddVulnerabilities vs).References = v.References ∧
      (v.AddVulnerabilities vs).Resources = v.Resources ∧
      (v.AddVulnerabilities vs).Attachments = v.Attachments) ∧
    (∀ v : Vulnerability, v.AddVulnerabilities [] = v) := by
  refine ⟨?_, ?_, ?_, ?_⟩
  · intro r vs
    exact ⟨rfl, rfl, rfl, rfl, rfl⟩
  · intro r
    cases r
    simp [ResultData.AddVulnerabilities]
  · intro v vs
    exact ⟨rfl, rfl, rfl, rfl, rfl, rfl, rfl, rfl, rfl, rfl, rfl, rfl⟩
  · intro v
    cases v
    simp [Vulnerability.AddVulnerabilities]

/-! ## The calendar: days, years, months -/

theorem Time.yearDay_of_cycles {a b c e k : Int} (h : Time.Cycles a b c e k) :
    Time.yearDay (146097 * a + 36524 * b + 1461 * c + 365 * e + k) =
      (400 * a + 100 * b + 4 * c + e + 1, k) := by
  obtain ⟨b0, b3, c0, c24, e0, e3, k0, k365, hleap⟩ := h
  have r3 : 0 ≤ 365 * e + k ∧ 365 * e + k ≤ 1460 := by
    by_cases hk : k = 365
    · have := (hleap hk).1
      omega
    · omega
  have r2 : 0 ≤ 1461 * c + 365 * e + k ∧ 1461 * c + 365 * e + k ≤ 36524 ∧
      (1461 * c + 365 * e + k = 36524 → b = 3) := by
    refine ⟨by omega, by omega, ?_⟩
    intro h36524
    have hk : k = 365 := by omega
    have hc : c = 24 := by omega
    rcases (hleap hk).2 with h | h
    · exact absurd hc h
    · exact h
  have r1 : 0 ≤ 36524 * b + 1461 * c + 365 * e + k ∧
      36524 * b + 1461 * c + 365 * e + k ≤ 146096 := by omega
  have s1 : (146097 * a + 36524 * b + 1461 * c + 365 * e + k) / 146097 = a := by omega
  have s2 : (146097 * a + 36524 * b + 1461 * c + 365 * e + k) % 146097 =
      36524 * b + 1461 * c + 365 * e + k := by omega
  have s3 : (36524 * b + 1461 * c + 365 * e + k) / 36524 -
      (36524 * b + 1461 * c + 365 * e + k) / 36524 / 4 = b := by
    have e1 : 36524 * b + 1461 * c + 365 * e + k = 36524 * b + (1461 * c + 365 * e + k) := by
      omega
    rw [e1]
    generalize 1461 * c + 365 * e + k = X at r2
    omega
  have s4 : (36524 * b + 1461 * c + 365 * e + k) - 36524 * b = 1461 * c + 365 * e + k := by
    omega
  have s5 : (1461 * c + 365 * e + k) / 1461 = c := by
    have e1 : 1461 * c + 365 * e + k = 1461 * c + (365 * e + k) := by omega
    rw [e1]
    generalize 365 * e + k = X at r3
    omega
  have s6 : (1461 * c + 365 * e + k) - 1461 * c = 365 * e + k := by omega
  have s7 : (365 * e + k) / 365 - (365 * e + k) / 365 / 4 = e := by
    by_cases hk : k = 365
    · have := (hleap hk).1
      subst hk
      subst this
      decide
    · omega
  have s8 : (365 * e + k) - 365 * e = k := by omega
  simp only [Time.yearDay, s1, s2, s3, s4, s5, s6, s7, s8]

theorem Time.daysSinceEpoch_of_cycles {a b c e : Int} (b0 : 0 ≤ b) (b3 : b ≤ 3) (c0 : 0 ≤ c)
    (c24 : c ≤ 24) (e0 : 0 ≤ e) (e3 : e ≤ 3) :
    Time.daysSinceEpoch (400 * a + 100 * b + 4 * c + e + 1) =
      146097 * a + 36524 * b + 1461 * c + 365 * e := by
  have s0 : 400 * a + 100 * b + 4 * c + e + 1 - 1 = 400 * a + 100 * b + 4 * c + e := by omega
  have s1 : (400 * a + 100 * b + 4 * c + e) / 400 = a := by omega
  have s2 : (400 * a + 100 * b + 4 * c + e) % 400 = 100 * b + 4 * c + e := by omega
  have s3 : (100 * b + 4 * c + e) / 100 = b := by omega
  have s4 : (100 * b + 4 * c + e) % 100 = 4 * c + e := by omega
  have s5 : (4 * c + e) / 4 = c := by omega
  have s6 : (4 * c + e) % 4 = e := by omega
  simp only [Time.daysSinceEpoch, s0, s1, s2, s3, s4, s5, s6]

theorem Time.isLeap_of_cycles {a b c e : Int} (b0 : 0 ≤ b) (b3 : b ≤ 3) (c0 : 0 ≤ c)
    (c24 : c ≤ 24) (e0 : 0 ≤ e) (e3 : e ≤ 3) :
    Time.isLeap (400 * a + 100 * b + 4 * c + e + 1) = true ↔ (e = 3 ∧ (c ≠ 24 ∨ b = 3)) := by
  simp only [Time.isLeap, Bool.and_eq_true, Bool.or_eq_true, beq_iff_eq, bne_iff_ne, ne_eq]
  constructor
  · rintro ⟨h4, h100 | h400⟩
    · refine ⟨by omega, ?_⟩
      by_cases hc : c = 24
      · exact Or.inr (by omega)
      · exact Or.inl hc
    · exact ⟨by omega, Or.inr (by omega)⟩
  · rintro ⟨he, hc | hb⟩
    · exact ⟨by omega, Or.inl (by omega)⟩
    · refine ⟨by omega, ?_⟩
      by_cases hc : c = 24
      · exact Or.inr (by omega)
      · exact Or.inl (by omega)

theorem Time.exists_cycles_year (y : Int) :
    ∃ a b c e : Int, 0 ≤ b ∧ b ≤ 3 ∧ 0 ≤ c ∧ c ≤ 24 ∧ 0 ≤ e ∧ e ≤ 3 ∧
      y = 400 * a + 100 * b + 4 * c + e + 1 := by
  refine ⟨(y - 1) / 400, (y - 1) % 400 / 100, (y - 1) % 400 % 100 / 4,
    (y - 1) % 400 % 100 % 4, ?_, ?_, ?_, ?_, ?_, ?_, ?_⟩ <;> omega

theorem Time.exists_cycles_day (d : Int) :
    ∃ a b c e k : Int, Time.Cycles a b c e k ∧
      d = 146097 * a + 36524 * b + 1461 * c + 365 * e + k := by
  have hR : 0 ≤ d % 146097 ∧ d % 146097 < 146097 := by omega
  have hd : d = 146097 * (d / 146097) + d % 146097 := by omega
  generalize d % 146097 = R at hR hd
  generalize d / 146097 = a at hd
  have hq1 : 0 ≤ R / 36524 ∧ R / 36524 ≤ 4 := by omega
  have hb : R / 36524 - R / 36524 / 4 = R / 36524 ∨
      (R / 36524 = 4 ∧ R / 36524 - R / 36524 / 4 = 3) := by omega
  have hR2 : 0 ≤ R - 36524 * (R / 36524 - R / 36524 / 4) ∧
      R - 36524 * (R / 36524 - R / 36524 / 4) ≤ 36524 ∧
      (R - 36524 * (R / 36524 - R / 36524 / 4) = 36524 →
        R / 36524 - R / 36524 / 4 = 3) := by omega
  have hb3 : 0 ≤ R / 36524 - R / 36524 / 4 ∧ R / 36524 - R / 36524 / 4 ≤ 3 := by omega
  have hRb : R = 36524 * (R / 36524 - R / 36524 / 4) +
      (R - 36524 * (R / 36524 - R / 36524 / 4)) := by omega
  generalize R / 36524 - R / 36524 / 4 = b at hR2 hb3 hRb
  generalize R - 36524 * b = R2 at hR2 hRb
  have hc : 0 ≤ R2 / 1461 ∧ R2 / 1461 ≤ 24 := by omega
  have hR3 : 0 ≤ R2 - 1461 * (R2 / 1461) ∧ R2 - 1461 * (R2 / 1461) ≤ 1460 ∧
      (R2 = 36524 → R2 / 1461 = 24 ∧ R2 - 1461 * (R2 / 1461) = 1460) ∧
      (R2 / 1461 = 24 → R2 - 1461 * (R2 / 1461) = 1460 → R2 = 36524) := by omega
  have hRc : R2 = 1461 * (R2 / 1461) + (R2 - 1461 * (R2 / 1461)) := by omega
  generalize R2 / 1461 = c at hc hR3 hRc
  generalize R2 - 1461 * c = R3 at hR3 hRc
  have he : 0 ≤ R3 / 365 - R3 / 365 / 4 ∧ R3 / 365 - R3 / 365 / 4 ≤ 3 := by omega
  have hk : 0 ≤ R3 - 365 * (R3 / 365 - R3 / 365 / 4) ∧
      R3 - 365 * (R3 / 365 - R3 / 365 / 4) ≤ 365 ∧
      (R3 - 365 * (R3 / 365 - R3 / 365 / 4) = 365 →
        R3 / 365 - R3 / 365 / 4 = 3 ∧ R3 = 1460) := by omega
  have hRe : R3 = 365 * (R3 / 365 - R3 / 365 / 4) +
      (R3 - 365 * (R3 / 365 - R3 / 365 / 4)) := by omega
  generalize R3 / 365 - R3 / 365 / 4 = e at he hk hRe
  generalize R3 - 365 * e = k at hk hRe
  refine ⟨a, b, c, e, k, ⟨hb3.1, hb3.2, hc.1, hc.2, he.1, he.2, hk.1, hk.2.1, ?_⟩, by omega⟩
  intro hk365
  obtain ⟨he3, hR3e⟩ := hk.2.2 hk365
  refine ⟨he3, ?_⟩
  by_cases hc24 : c = 24
  · right
    have : R2 = 36524 := hR3.2.2.2 hc24 hR3e
    exact hR2.2.2 this
  · exact Or.inl hc24

/-- The year of a day and the day within the year, back to the day. -/
theorem Time.daysSinceEpoch_yearDay (d : Int) :
    Time.daysSinceEpoch (Time.yearDay d).1 + (Time.yearDay d).2 = d ∧
    0 ≤ (Time.yearDay d).2 ∧
    (Time.yearDay d).2 < 365 + (if Time.isLeap (Time.yearDay d).1 = true then 1 else 0) := by
  obtain ⟨a, b, c, e, k, hcy, hd⟩ := Time.exists_cycles_day d
  rw [hd, Time.yearDay_of_cycles hcy]
  simp only []
  rw [Time.daysSinceEpoch_of_cycles hcy.b0 hcy.b3 hcy.c0 hcy.c24 hcy.e0 hcy.e3]
  refine ⟨rfl, hcy.k0, ?_⟩
  by_cases hl : Time.isLeap (400 * a + 100 * b + 4 * c + e + 1) = true
  · rw [if_pos hl]
    have := hcy.k365
    omega
  · rw [if_neg hl]
    have hne : k ≠ 365 := fun hk =>
      hl ((Time.isLeap_of_cycles hcy.b0 hcy.b3 hcy.c0 hcy.c24 hcy.e0 hcy.e3).mpr (hcy.leap hk))
    have := hcy.k365
    omega

/-- The first day of a year and a day within the year, back to the year and the day. -/
theorem Time.yearDay_daysSinceEpoch (y k : Int) (h0 : 0 ≤ k)
    (h1 : k < 365 + (if Time.isLeap y = true then 1 else 0)) :
    Time.yearDay (Time.daysSinceEpoch y + k) = (y, k) := by
  obtain ⟨a, b, c, e, b0, b3, c0, c24, e0, e3, hy⟩ := Time.exists_cycles_year y
  subst hy
  rw [Time.daysSinceEpoch_of_cycles b0 b3 c0 c24 e0 e3]
  apply Time.yearDay_of_cycles
  refine ⟨b0, b3, c0, c24, e0, e3, h0, ?_, ?_⟩
  · split_ifs at h1 <;> omega
  · intro hk
    by_cases hl : Time.isLeap (400 * a + 100 * b + 4 * c + e + 1) = true
    · exact (Time.isLeap_of_cycles b0 b3 c0 c24 e0 e3).mp hl
    · rw [if_neg hl] at h1
      omega


theorem Time.monthDay_core (m : Nat) (day : Int) (hm : m ≤ 11)
    (h1 : Time.daysBefore m ≤ day) (h2 : day < Time.daysBefore (m + 1)) :
    (if day ≥ Time.daysBefore ((day / 31).toNat + 1) then
        ((day / 31).toNat + 2, day - Time.daysBefore ((day / 31).toNat + 1) + 1)
      else ((day / 31).toNat + 1, day - Time.daysBefore (day / 31).toNat + 1)) =
      (m + 1, day - Time.daysBefore m + 1) := by
  have hday : 0 ≤ day := by
    have : (0 : Int) ≤ Time.daysBefore m := by
      interval_cases m <;> simp [Time.daysBefore]
    omega
  obtain ⟨q, hq⟩ : ∃ q : Nat, day / 31 = (q : Int) := ⟨(day / 31).toNat, by omega⟩
  rw [hq, Int.toNat_ofNat]
  interval_cases m <;> simp only [Time.daysBefore] at h1 h2 <;>
    first
    | (have hq2 : q = 0 := by omega
       subst hq2
       simp [Time.daysBefore]
       omega)
    | (have hq2 : q = 0 ∨ q = 1 := by omega
       rcases hq2 with rfl | rfl <;> simp [Time.daysBefore] <;> omega)
    | (have hq2 : q = 1 ∨ q = 2 := by omega
       rcases hq2 with rfl | rfl <;> simp [Time.daysBefore] <;> omega)
    | (have hq2 : q = 2 ∨ q = 3 := by omega
       rcases hq2 with rfl | rfl <;> simp [Time.daysBefore] <;> omega)
    | (have hq2 : q = 3 ∨ q = 4 := by omega
       rcases hq2 with rfl | rfl <;> simp [Time.daysBefore] <;> omega)
    | (have hq2 : q = 4 ∨ q = 5 := by omega
       rcases hq2 with rfl | rfl <;> simp [Time.daysBefore] <;> omega)
    | (have hq2 : q = 5 ∨ q = 6 := by omega
       rcases hq2 with rfl | rfl <;> simp [Time.daysBefore] <;> omega)
    | (have hq2 : q = 6 ∨ q = 7 := by omega
       rcases hq2 with rfl | rfl <;> simp [Time.daysBefore] <;> omega)
    | (have hq2 : q = 7 ∨ q = 8 := by omega
       rcases hq2 with rfl | rfl <;> simp [Time.daysBefore] <;> omega)
    | (have hq2 : q = 8 ∨ q = 9 := by omega
       rcases hq2 with rfl | rfl <;> simp [Time.daysBefore] <;> omega)
    | (have hq2 : q = 9 ∨ q = 10 := by omega
       rcases hq2 with rfl | rfl <;> simp [Time.daysBefore] <;> omega)
    | (have hq2 : q = 10 ∨ q = 11 := by omega
       rcases hq2 with rfl | rfl <;> simp [Time.daysBefore] <;> omega)


theorem Time.daysBefore_succ_sub (m : Nat) (hm : m ≤ 11) (y : Int) :
    Time.daysBefore (m + 1) - Time.daysBefore m ≤ Time.daysIn (m + 1) y ∧
    (¬ (m + 1 = 2 ∧ Time.isLeap y = true) →
      Time.daysIn (m + 1) y = Time.daysBefore (m + 1) - Time.daysBefore m) ∧
    (m + 1 = 2 ∧ Time.isLeap y = true → Time.daysIn (m + 1) y = 29) := by
  unfold Time.daysIn
  refine ⟨?_, ?_, ?_⟩
  · split_ifs with h
    · obtain ⟨h2, _⟩ := h
      have : m = 1 := by omega
      subst this
      decide
    · simp
  · intro h
    rw [if_neg h]
    simp
  · intro h
    rw [if_pos h]

/-- The month and the day of a date, back from the day within the year. -/
theorem Time.monthDay_of_date (y : Int) (M D : Nat) (hM1 : 1 ≤ M) (hM : M ≤ 12)
    (hD1 : 1 ≤ D) (hD : (D : Int) ≤ Time.daysIn M y) :
    Time.monthDay (Time.isLeap y) (Time.daysBefore (M - 1) +
      (if Time.isLeap y = true ∧ M ≥ 3 then 1 else 0) + ((D : Int) - 1)) = (M, (D : Int)) := by
  obtain ⟨m, rfl⟩ : ∃ m, M = m + 1 := ⟨M - 1, by omega⟩
  have hm : m ≤ 11 := by omega
  simp only [Nat.add_sub_cancel]
  obtain ⟨hle, hne, heq⟩ := Time.daysBefore_succ_sub m hm y
  have hmono : Time.daysBefore m ≤ Time.daysBefore (m + 1) := by
    interval_cases m <;> simp [Time.daysBefore]
  by_cases hl : Time.isLeap y = true
  · by_cases h29 : m = 1 ∧ D = 29
    · obtain ⟨rfl, rfl⟩ := h29
      simp [Time.monthDay, hl, Time.daysBefore]
    · by_cases hm3 : m + 1 ≥ 3
      · have hin := hne (by omega)
        have hge : (59 : Int) ≤ Time.daysBefore m := by
          interval_cases m <;> first | omega | simp [Time.daysBefore]
        have hyd : ¬ (Time.daysBefore m + 1 + ((D : Int) - 1) = 59) := by omega
        have hyd2 : Time.daysBefore m + 1 + ((D : Int) - 1) > 59 := by omega
        simp only [Time.monthDay, hl, hm3, and_self, if_true, true_and, hyd, if_false, hyd2]
        rw [Time.monthDay_core m _ hm (by omega) (by omega)]
        ext
        · rfl
        · simp only []
          omega
      · have hm01 : m = 0 ∨ m = 1 := by omega
        have hD28 : (D : Int) ≤ Time.daysBefore (m + 1) - Time.daysBefore m := by
          rcases hm01 with rfl | rfl
          · have := hne (by omega)
            omega
          · have := heq ⟨rfl, hl⟩
            have : D ≠ 29 := fun h => h29 ⟨rfl, h⟩
            simp only [Time.daysBefore]
            omega
        have hlt : Time.daysBefore (m + 1) ≤ 59 := by
          rcases hm01 with rfl | rfl <;> simp [Time.daysBefore]
        have hyd : ¬ (Time.daysBefore m + 0 + ((D : Int) - 1) = 59) := by omega
        have hyd2 : ¬ (Time.daysBefore m + 0 + ((D : Int) - 1) > 59) := by omega
        simp only [Time.monthDay, hl, hm3, and_false, if_false, true_and, hyd, hyd2]
        rw [Time.monthDay_core m _ hm (by omega) (by omega)]
        ext
        · rfl
        · simp only []
          omega
  · have hin := hne (fun h => hl h.2)
    have hl2 : Time.isLeap y = false := by simpa using hl
    simp only [Time.monthDay, hl2, Bool.false_eq_true, false_and, if_false, add_zero]
    rw [Time.monthDay_core m _ hm (by omega) (by omega)]
    ext
    · rfl
    · simp only []
      omega


/-- The month and the day of a day within the year are a date of the year, and give the
day within the year back. -/
theorem Time.date_of_monthDay (y : Int) (k : Int) (h0 : 0 ≤ k)
    (h1 : k < 365 + (if Time.isLeap y = true then 1 else 0)) :
    1 ≤ (Time.monthDay (Time.isLeap y) k).1 ∧ (Time.monthDay (Time.isLeap y) k).1 ≤ 12 ∧
    1 ≤ (Time.monthDay (Time.isLeap y) k).2 ∧
    (Time.monthDay (Time.isLeap y) k).2 ≤
      Time.daysIn (Time.monthDay (Time.isLeap y) k).1 y ∧
    Time.daysBefore ((Time.monthDay (Time.isLeap y) k).1 - 1) +
      (if Time.isLeap y = true ∧ (Time.monthDay (Time.isLeap y) k).1 ≥ 3 then 1 else 0) +
      ((Time.monthDay (Time.isLeap y) k).2 - 1) = k := by
  have hfind : ∀ day : Int, 0 ≤ day → day < 365 →
      ∃ m : Nat, m ≤ 11 ∧ Time.daysBefore m ≤ day ∧ day < Time.daysBefore (m + 1) ∧
        (day < 59 → m ≤ 1) ∧ (59 ≤ day → 2 ≤ m) := by
    intro day hd0 hd1
    by_cases h : day < 31
    · exact ⟨0, by simp [Time.daysBefore]; omega⟩
    by_cases h : day < 59
    · exact ⟨1, by simp [Time.daysBefore]; omega⟩
    by_cases h : day < 90
    · exact ⟨2, by simp [Time.daysBefore]; omega⟩
    by_cases h : day < 120
    · exact ⟨3, by simp [Time.daysBefore]; omega⟩
    by_cases h : day < 151
    · exact ⟨4, by simp [Time.daysBefore]; omega⟩
    by_cases h : day < 181
    · exact ⟨5, by simp [Time.daysBefore]; omega⟩
    by_cases h : day < 212
    · exact ⟨6, by simp [Time.daysBefore]; omega⟩
    by_cases h : day < 243
    · exact ⟨7, by simp [Time.daysBefore]; omega⟩
    by_cases h : day < 273
    · exact ⟨8, by simp [Time.daysBefore]; omega⟩
    by_cases h : day < 304
    · exact ⟨9, by simp [Time.daysBefore]; omega⟩
    by_cases h : day < 334
    · exact ⟨10, by simp [Time.daysBefore]; omega⟩
    · exact ⟨11, by simp [Time.daysBefore]; omega⟩
  by_cases hl : Time.isLeap y = true
  · rw [if_pos hl] at h1
    by_cases h59 : k = 59
    · subst h59
      simp [Time.monthDay, hl, Time.daysIn, Time.daysBefore]
    · by_cases hgt : k > 59
      · obtain ⟨m, hm, hlo, hhi, _, hm2⟩ := hfind (k - 1) (by omega) (by omega)
        have hm2 := hm2 (by omega)
        obtain ⟨hle, hne, _⟩ := Time.daysBefore_succ_sub m hm y
        have hmd : Time.monthDay (Time.isLeap y) k =
            (m + 1, k - 1 - Time.daysBefore m + 1) := by
          simp only [Time.monthDay, hl, h59, hgt, and_self, and_false, if_true, if_false]
          exact Time.monthDay_core m _ hm hlo hhi
        rw [hmd]
        simp only [Nat.add_sub_cancel, hl, true_and]
        have h3 : m + 1 ≥ 3 := by omega
        rw [if_pos h3]
        refine ⟨by omega, by omega, by omega, by omega, by omega⟩
      · obtain ⟨m, hm, hlo, hhi, hm1, _⟩ := hfind k h0 (by omega)
        have hm1 := hm1 (by omega)
        obtain ⟨hle, hne, _⟩ := Time.daysBefore_succ_sub m hm y
        have hmd : Time.monthDay (Time.isLeap y) k = (m + 1, k - Time.daysBefore m + 1) := by
          simp only [Time.monthDay, hl, h59, hgt, and_self, and_false, if_true, if_false]
          exact Time.monthDay_core m _ hm hlo hhi
        rw [hmd]
        simp only [Nat.add_sub_cancel, hl, true_and]
        have h3 : ¬ m + 1 ≥ 3 := by omega
        rw [if_neg h3]
        refine ⟨by omega, by omega, by omega, by omega, by omega⟩
  · rw [if_neg hl] at h1
    have hl2 : Time.isLeap y = false := by simpa using hl
    obtain ⟨m, hm, hlo, hhi, _, _⟩ := hfind k h0 (by omega)
    obtain ⟨hle, hne, _⟩ := Time.daysBefore_succ_sub m hm y
    have hmd : Time.monthDay (Time.isLeap y) k = (m + 1, k - Time.daysBefore m + 1) := by
      simp only [Time.monthDay, hl2, Bool.false_eq_true, false_and, if_false]
      exact Time.monthDay_core m _ hm hlo hhi
    rw [hmd]
    simp only [Nat.add_sub_cancel, hl2, Bool.false_eq_true, false_and, if_false]
    refine ⟨by omega, by omega, by omega, by omega, by omega⟩

/-! ## MarshalJSONTimeAsString -/

theorem Time.Format_zero (zone : Nat → Int → Int) :
    Time.Format zone Time.zero = "0001-01-01 00:00:00" := by
  have h : Time.abs zone Time.zero = 0 := rfl
  rw [Time.Format, h]
  decide

theorem MarshalJSONTimeAsString_eq_some (zone : Nat → Int → Int) (r : Report) (d : Document)
    (h : (r.MarshalJSONTimeAsString zone).1 = some d) :
    hasUnsupportedScore.list r.Vulnerabilities = false ∧
    d.start_time = r.StartTime.Format zone ∧ d.end_time = r.EndTime.Format zone ∧
    d.check_id = r.CheckID ∧ d.checktype_name = r.ChecktypeName ∧
    d.checktype_version = r.ChecktypeVersion ∧ d.status = r.Status ∧ d.target = r.Target ∧
    d.options = r.Options ∧ d.tag = r.Tag ∧ d.vulnerabilities = r.Vulnerabilities ∧
    d.data = r.Data ∧ d.notes = r.Notes ∧ d.error = r.Error ∧
    d.not_applicable = r.NotApplicable := by
  unfold Report.MarshalJSONTimeAsString jsonMarshal at h
  by_cases hu : hasUnsupportedScore.list r.Vulnerabilities = true
  · simp [hu] at h
  · rw [if_neg hu] at h
    simp only [Option.some.injEq] at h
    subst h
    simp only [Bool.not_eq_true] at hu
    exact ⟨hu, rfl, rfl, rfl, rfl, rfl, rfl, rfl, rfl, rfl, rfl, rfl, rfl, rfl, rfl⟩

/-- C17, what the code does: for a report whose StartTime (respectively EndTime) is the
zero-value timestamp, `MarshalJSONTimeAsString` renders "start_time" (respectively
"end_time") as "0001-01-01 00:00:00", not as the empty string: `formatTime` is handed the
address of the field, which is never `nil`. -/
theorem MarshalJSONTimeAsString_zero_time (zone : Nat → Int → Int) (r : Report)
    (d : Document) (h : (r.MarshalJSONTimeAsString zone).1 = some d) :
    (r.StartTime = Time.zero → d.start_time = "0001-01-01 00:00:00" ∧ d.start_time ≠ "") ∧
    (r.EndTime = Time.zero → d.end_time = "0001-01-01 00:00:00" ∧ d.end_time ≠ "") := by
  obtain ⟨_, hs, he, _⟩ := MarshalJSONTimeAsString_eq_some zone r d h
  constructor
  · intro hz
    rw [hs, hz, Time.Format_zero]
    exact ⟨rfl, by decide⟩
  · intro hz
    rw [he, hz, Time.Format_zero]
    exact ⟨rfl, by decide⟩

/-- The zero value of `Report`, whose two timestamps are zero. -/
theorem MarshalJSONTimeAsString_zero_time_witness :
    Report.fresh.StartTime = Time.zero ∧
    ((Report.fresh.MarshalJSONTimeAsString fun _ _ => 0).1.map fun d => d.start_time) =
      some "0001-01-01 00:00:00" ∧
    ∀ d, (Report.fresh.MarshalJSONTimeAsString fun _ _ => 0).1 = some d →
      d.start_time = "0001-01-01 00:00:00" ∧ d.start_time ≠ "" :=
  ⟨rfl, by decide, fun d h =>
    (MarshalJSONTimeAsString_zero_time (fun _ _ => 0) Report.fresh d h).1 rfl⟩

/-! ## UnmarshalJSONTimeAsString -/

theorem UnmarshalJSONTimeAsString_empty_start (r : Report) (data : Input)
    (hwf : data.err = none) (hs : data.start_time.getD "" = "") :
    r.UnmarshalJSONTimeAsString data =
      if (data.end_time.getD "").length > 0 then
        match Time.Parse (data.end_time.getD "") with
        | (endTime, none) =>
          ({ data.members r with StartTime := r.StartTime, EndTime := endTime }, none)
        | (_, some err) =>
          ({ data.members r with StartTime := r.StartTime, EndTime := r.EndTime }, some err)
      else ({ data.members r with StartTime := r.StartTime, EndTime := r.EndTime }, none) := by
  unfold Report.UnmarshalJSONTimeAsString
  simp only [hwf, hs, String.length, List.length_nil, gt_iff_lt, lt_self_iff_false, if_false]

theorem String.length_pos_iff_ne_empty (s : String) : s.length > 0 ↔ s ≠ "" := by
  obtain ⟨l⟩ := s
  cases l with
  | nil => simp [String.length]
  | cons c l =>
    simp only [String.length, List.length_cons, gt_iff_lt, Nat.zero_lt_succ, true_iff]
    intro h
    have := congrArg String.data h
    simp at this

theorem UnmarshalJSONTimeAsString_error (r : Report) (data : Input) (hwf : data.err = none) :
    (r.UnmarshalJSONTimeAsString data).2 =
      if data.start_time.getD "" ≠ "" ∧ (Time.Parse (data.start_time.getD "")).2 ≠ none then
        (Time.Parse (data.start_time.getD "")).2
      else if data.end_time.getD "" ≠ "" then (Time.Parse (data.end_time.getD "")).2
      else none := by
  unfold Report.UnmarshalJSONTimeAsString
  simp only [hwf, String.length_pos_iff_ne_empty]
  by_cases hs : data.start_time.getD "" = ""
  · by_cases he : data.end_time.getD "" = ""
    · simp [hs, he]
    · rcases hp : Time.Parse (data.end_time.getD "") with ⟨t, _ | e⟩ <;> simp [hs, he, hp]
  · rcases hp : Time.Parse (data.start_time.getD "") with ⟨t, _ | e⟩
    · by_cases he : data.end_time.getD "" = ""
      · simp [hs, he, hp]
      · rcases hq : Time.Parse (data.end_time.getD "") with ⟨u, _ | e⟩ <;>
          simp [hs, he, hp, hq]
    · simp [hs, hp]

theorem UnmarshalJSONTimeAsString_StartTime (r : Report) (data : Input)
    (hwf : data.err = none) :
    (r.UnmarshalJSONTimeAsString data).1.StartTime =
      if data.start_time.getD "" ≠ "" ∧ (Time.Parse (data.start_time.getD "")).2 = none then
        (Time.Parse (data.start_time.getD "")).1
      else r.StartTime := by
  unfold Report.UnmarshalJSONTimeAsString
  simp only [hwf, String.length_pos_iff_ne_empty]
  by_cases hs : data.start_time.getD "" = ""
  · by_cases he : data.end_time.getD "" = ""
    · simp [hs, he]
    · rcases hp : Time.Parse (data.end_time.getD "") with ⟨t, _ | e⟩ <;> simp [hs, he, hp]
  · rcases hp : Time.Parse (data.start_time.getD "") with ⟨t, _ | e⟩
    · by_cases he : data.end_time.getD "" = ""
      · simp [hs, he, hp]
      · rcases hq : Time.Parse (data.end_time.getD "") with ⟨u, _ | e⟩ <;>
          simp [hs, he, hp, hq]
    · simp [hs, hp]

theorem UnmarshalJSONTimeAsString_EndTime (r : Report) (data : Input)
    (hwf : data.err = none) :
    (r.UnmarshalJSONTimeAsString data).1.EndTime =
      if (data.start_time.getD "" = "" ∨ (Time.Parse (data.start_time.getD "")).2 = none) ∧
          data.end_time.getD "" ≠ "" ∧ (Time.Parse (data.end_time.getD "")).2 = none then
        (Time.Parse (data.end_time.getD "")).1
      else r.EndTime := by
  unfold Report.UnmarshalJSONTimeAsString
  simp only [hwf, String.length_pos_iff_ne_empty]
  by_cases hs : data.start_time.getD "" = ""
  · by_cases he : data.end_time.getD "" = ""
    · simp [hs, he]
    · rcases hp : Time.Parse (data.end_time.getD "") with ⟨t, _ | e⟩ <;> simp [hs, he, hp]
  · rcases hp : Time.Parse (data.start_time.getD "") with ⟨t, _ | e⟩
    · by_cases he : data.end_time.getD "" = ""
      · simp [hs, he, hp]
      · rcases hq : Time.Parse (data.end_time.getD "") with ⟨u, _ | e⟩ <;>
          simp [hs, he, hp, hq]
    · simp [hs, hp]

theorem UnmarshalJSONTimeAsString_other_fields (r : Report) (data : Input) :
    (r.UnmarshalJSONTimeAsString data).1.CheckID = (data.members r).CheckID ∧
    (r.UnmarshalJSONTimeAsString data).1.ChecktypeName = (data.members r).ChecktypeName ∧
    (r.UnmarshalJSONTimeAsString data).1.ChecktypeVersion =
      (data.members r).ChecktypeVersion ∧
    (r.UnmarshalJSONTimeAsString data).1.Status = (data.members r).Status ∧
    (r.UnmarshalJSONTimeAsString data).1.Target = (data.members r).Target ∧
    (r.UnmarshalJSONTimeAsString data).1.Options = (data.members r).Options ∧
    (r.UnmarshalJSONTimeAsString data).1.Tag = (data.members r).Tag ∧
    (r.UnmarshalJSONTimeAsString data).1.Vulnerabilities = (data.members r).Vulnerabilities ∧
    (r.UnmarshalJSONTimeAsString data).1.Data = (data.members r).Data ∧
    (r.UnmarshalJSONTimeAsString data).1.Notes = (data.members r).Notes ∧
    (r.UnmarshalJSONTimeAsString data).1.Error = (data.members r).Error ∧
    (r.UnmarshalJSONTimeAsString data).1.NotApplicable = (data.members r).NotApplicable := by
  unfold Report.UnmarshalJSONTimeAsString
  rcases herr : data.err with _ | e
  · by_cases hs : (data.start_time.getD "").length > 0
    · rcases hp : Time.Parse (data.start_time.getD "") with ⟨t, _ | e⟩
      · by_cases he : (data.end_time.getD "").length > 0
        · rcases hq : Time.Parse (data.end_time.getD "") with ⟨u, _ | e⟩ <;>
            simp [hs, he, hp, hq]
        · simp [hs, he, hp]
      · simp [hs, hp]
    · by_cases he : (data.end_time.getD "").length > 0
      · rcases hq : Time.Parse (data.end_time.getD "") with ⟨u, _ | e⟩ <;> simp [hs, he, hq]
      · simp [hs, he]
  · simp

/-- C18, as amended: for every well-formed input in which "start_time" (respectively
"end_time") is absent or is the empty string, `UnmarshalJSONTimeAsString` does not fail on
account of that field (an error, if any, is the one of parsing the other timestamp) and
the StartTime (respectively EndTime) of the report after the call is the one that the
receiver held before the call; it is the zero timestamp when the receiver held the zero
timestamp, as a fresh report does. -/
theorem UnmarshalJSONTimeAsString_absent_time (r : Report) (data : Input)
    (hwf : data.err = none) :
    ((data.start_time = none ∨ data.start_time = some "") →
      (r.UnmarshalJSONTimeAsString data).1.StartTime = r.StartTime ∧
      (r.StartTime = Time.zero → (r.UnmarshalJSONTimeAsString data).1.StartTime = Time.zero) ∧
      ((r.UnmarshalJSONTimeAsString data).2 = none ∨
        (data.end_time.getD "" ≠ "" ∧
          (r.UnmarshalJSONTimeAsString data).2 = (Time.Parse (data.end_time.getD "")).2))) ∧
    ((data.end_time = none ∨ data.end_time = some "") →
      (r.UnmarshalJSONTimeAsString data).1.EndTime = r.EndTime ∧
      (r.EndTime = Time.zero → (r.UnmarshalJSONTimeAsString data).1.EndTime = Time.zero) ∧
      ((r.UnmarshalJSONTimeAsString data).2 = none ∨
        (data.start_time.getD "" ≠ "" ∧
          (r.UnmarshalJSONTimeAsString data).2 =
            (Time.Parse (data.start_time.getD "")).2))) := by
  constructor
  · intro h
    have hs : data.start_time.getD "" = "" := by
      rcases h with h | h <;> rw [h] <;> rfl
    have h1 : (r.UnmarshalJSONTimeAsString data).1.StartTime = r.StartTime := by
      rw [UnmarshalJSONTimeAsString_StartTime r data hwf]
      simp [hs]
    refine ⟨h1, fun hz => by rw [h1, hz], ?_⟩
    rw [UnmarshalJSONTimeAsString_error r data hwf]
    by_cases he : data.end_time.getD "" = ""
    · simp [hs, he]
    · simp [hs, he]
  · intro h
    have he : data.end_time.getD "" = "" := by
      rcases h with h | h <;> rw [h] <;> rfl
    have h1 : (r.UnmarshalJSONTimeAsString data).1.EndTime = r.EndTime := by
      rw [UnmarshalJSONTimeAsString_EndTime r data hwf]
      simp [he]
    refine ⟨h1, fun hz => by rw [h1, hz], ?_⟩
    rw [UnmarshalJSONTimeAsString_error r data hwf]
    by_cases hs : data.start_time.getD "" = ""
    · simp [hs, he]
    · by_cases hp : (Time.Parse (data.start_time.getD "")).2 = none
      · simp [hs, he, hp]
      · simp [hs, he, hp]

/-- An input without "start_time" and with an "end_time", read into a fresh report and
into the report `cd0` of the tests, whose start time is 2021-05-18 13:30:15. -/
theorem UnmarshalJSONTimeAsString_absent_time_witness :
    (inputWithTimes none (some "2021-05-18 14:00:50")).err = none ∧
    (Report.fresh.UnmarshalJSONTimeAsString
      (inputWithTimes none (some "2021-05-18 14:00:50"))).1.StartTime = Time.zero ∧
    ((reportWith "ID0" "CT0" "CTV0" "example.com" "FINISHED" ⟨0, 63756941415, none⟩
      []).UnmarshalJSONTimeAsString
      (inputWithTimes none (some "2021-05-18 14:00:50"))).1.StartTime =
      ⟨0, 63756941415, none⟩ :=
  ⟨rfl,
    ((UnmarshalJSONTimeAsString_absent_time Report.fresh
      (inputWithTimes none (some "2021-05-18 14:00:50")) rfl).1 (Or.inl rfl)).2.1 rfl,
    ((UnmarshalJSONTimeAsString_absent_time
      (reportWith "ID0" "CT0" "CTV0" "example.com" "FINISHED" ⟨0, 63756941415, none⟩ [])
      (inputWithTimes none (some "2021-05-18 14:00:50")) rfl).1 (Or.inl rfl)).1⟩

/-- C18, counterexample: the report `cd0` of the tests, whose start time is 2021-05-18
13:30:15, reads a well-formed input without "start_time": its StartTime after the call is
not the zero timestamp. -/
theorem UnmarshalJSONTimeAsString_absent_time_counterexample :
    ¬ (((reportWith "ID0" "CT0" "CTV0" "example.com" "FINISHED" ⟨0, 63756941415, none⟩
      []).UnmarshalJSONTimeAsString (inputWithTimes none none)).2 = none ∧
      ((reportWith "ID0" "CT0" "CTV0" "example.com" "FINISHED" ⟨0, 63756941415, none⟩
        []).UnmarshalJSONTimeAsString (inputWithTimes none none)).1.StartTime =
        Time.zero) := by
  decide

/-! ## `time.Parse` on the strings that match the layout -/

theorem Time.digitChar_props (a : Nat) :
    Time.isDigitChar (Time.digitChar a) = true ∧
    Time.digitValue (Time.digitChar a) = a % 10 ∧
    Time.digitChar a ≠ ' ' ∧ Time.digitChar a ≠ '-' ∧ Time.digitChar a ≠ ':' ∧
    Time.digitChar a ≠ '.' ∧ Time.digitChar a ≠ ',' := by
  have h : a % 10 < 10 := Nat.mod_lt _ (by decide)
  unfold Time.digitChar
  generalize a % 10 = k at h
  interval_cases k <;> decide

theorem Time.getnum_digits (a b : Nat) (rest : List Char) (fixed : Bool) :
    Time.getnum (Time.digitChar a :: Time.digitChar b :: rest) fixed =
      some (a % 10 * 10 + b % 10, rest) := by
  have pa := Time.digitChar_props a
  have pb := Time.digitChar_props b
  simp [Time.getnum, Time.isDigit, pa.1, pb.1, pa.2.1, pb.2.1]

theorem Time.skip_self (c : Char) (rest : List Char) (hc : c ≠ ' ') :
    Time.skip (c :: rest) c = some rest := by
  simp [Time.skip, hc]

theorem Time.skip_space (x : Char) (rest : List Char) (hx : x ≠ ' ') :
    Time.skip (' ' :: x :: rest) ' ' = some (x :: rest) := by
  simp [Time.skip, Time.cutspace, hx]

theorem Time.atoiDigits_four (a b c d : Nat) :
    Time.atoiDigits [Time.digitChar a, Time.digitChar b, Time.digitChar c, Time.digitChar d]
      = some ((((0 * 10 + a % 10) * 10 + b % 10) * 10 + c % 10) * 10 + d % 10) := by
  have pa := Time.digitChar_props a
  have pb := Time.digitChar_props b
  have pc := Time.digitChar_props c
  have pd := Time.digitChar_props d
  simp [Time.atoiDigits, pa.1, pb.1, pc.1, pd.1, pa.2.1, pb.2.1, pc.2.1, pd.2.1]

theorem Time.Parse.fields_layoutString (Y M D h m s : Nat) (hY : Y < 10000)
    (hM1 : 1 ≤ M) (hM : M ≤ 12) (hD1 : 1 ≤ D) (hD : (D : Int) ≤ Time.daysIn M Y)
    (hD2 : D < 100) (hh : h < 24) (hm : m < 60) (hs : s < 60) :
    Time.Parse.fields (layoutString Y M D h m s).data = some (Y, M, D, h, m, s, 0) := by
  have eY : (((0 * 10 + Y / 1000 % 10) * 10 + Y / 100 % 10) * 10 + Y / 10 % 10) * 10 + Y % 10
      = Y := by omega
  have eM : M / 10 % 10 * 10 + M % 10 = M := by omega
  have eD : D / 10 % 10 * 10 + D % 10 = D := by omega
  have eh : h / 10 % 10 * 10 + h % 10 = h := by omega
  have em : m / 10 % 10 * 10 + m % 10 = m := by omega
  have es : s / 10 % 10 * 10 + s % 10 = s := by omega
  have hd0 : Time.isDigit (Time.digitChar (Y / 1000) :: Time.digitChar (Y / 100) ::
      Time.digitChar (Y / 10) :: Time.digitChar Y :: '-' :: Time.digitChar (M / 10) ::
      Time.digitChar M :: '-' :: Time.digitChar (D / 10) :: Time.digitChar D :: ' ' ::
      Time.digitChar (h / 10) :: Time.digitChar h :: ':' :: Time.digitChar (m / 10) ::
      Time.digitChar m :: ':' :: Time.digitChar (s / 10) :: [Time.digitChar s]) 0 = true := by
    simp [Time.isDigit, (Time.digitChar_props (Y / 1000)).1]
  have hM' : ¬ (M ≤ 0 ∨ 12 < M) := by omega
  have hh' : ¬ 24 ≤ h := by omega
  have hm' : ¬ 60 ≤ m := by omega
  have hs' : ¬ 60 ≤ s := by omega
  unfold Time.Parse.fields
  simp only [layoutString]
  rw [if_neg (by rw [hd0]; simp)]
  simp only [List.take, List.drop, Time.atoiDigits_four, eY,
    Time.skip_self _ _ (show '-' ≠ ' ' by decide), Time.getnum_digits, eM, if_neg hM', eD,
    Time.skip_space _ _ (Time.digitChar_props (h / 10)).2.2.1, eh, if_neg hh',
    Time.skip_self _ _ (show ':' ≠ ' ' by decide), em, if_neg hm', es, if_neg hs']
  simp
  exact ⟨by omega, hD⟩

theorem Time.Parse_layoutString (Y M D h m s : Nat) (hY : Y < 10000)
    (hM1 : 1 ≤ M) (hM : M ≤ 12) (hD1 : 1 ≤ D) (hD : (D : Int) ≤ Time.daysIn M Y)
    (hD2 : D < 100) (hh : h < 24) (hm : m < 60) (hs : s < 60) :
    Time.Parse (layoutString Y M D h m s) = (Time.Date Y M D h m s 0, none) := by
  rw [Time.Parse, Time.Parse.fields_layoutString Y M D h m s hY hM1 hM hD1 hD hD2 hh hm hs]

theorem Time.daysIn_le (M : Nat) (Y : Int) : Time.daysIn M Y ≤ 31 := by
  unfold Time.daysIn
  split_ifs
  · decide
  · rcases M with _ | _ | _ | _ | _ | _ | _ | _ | _ | _ | _ | _ | _ | _ | M <;>
      simp [Time.daysBefore]

/-! ## `Format` writes the layout, `Parse` reads it back -/

theorem Time.digits_lt_ten (fuel n : Nat) (h : n < 10) :
    Time.digits (fuel + 1) n = [Time.digitChar n] := by
  simp [Time.digits, h]

theorem Time.digitChar_zero_of_lt {n k : Nat} (h : n < k) :
    Time.digitChar (n / k) = '0' := by
  have : n / k = 0 := Nat.div_eq_of_lt h
  rw [this]
  decide

theorem Time.appendInt_two (n : Nat) (h : n < 100) :
    Time.appendInt (n : Int) 2 = [Time.digitChar (n / 10), Time.digitChar n] := by
  have hneg : ¬ ((n : Int) < 0) := by omega
  simp only [Time.appendInt, hneg, if_false, Int.natAbs_ofNat, List.nil_append]
  by_cases h10 : n < 10
  · rw [Time.digits_lt_ten 19 n h10, Time.digitChar_zero_of_lt h10]
    rfl
  · have h2 : Time.digits 20 n = [Time.digitChar (n / 10), Time.digitChar n] := by
      rw [Time.digits, if_neg h10, Time.digits_lt_ten 18 (n / 10) (by omega)]
      rfl
    rw [h2]
    rfl

theorem Time.appendInt_four (n : Nat) (h : n < 10000) :
    Time.appendInt (n : Int) 4 = [Time.digitChar (n / 1000), Time.digitChar (n / 100),
      Time.digitChar (n / 10), Time.digitChar n] := by
  have hneg : ¬ ((n : Int) < 0) := by omega
  simp only [Time.appendInt, hneg, if_false, Int.natAbs_ofNat, List.nil_append]
  by_cases h10 : n < 10
  · rw [Time.digits_lt_ten 19 n h10, Time.digitChar_zero_of_lt h10,
      Time.digitChar_zero_of_lt (show n < 100 by omega),
      Time.digitChar_zero_of_lt (show n < 1000 by omega)]
    rfl
  · by_cases h100 : n < 100
    · have h2 : Time.digits 20 n = [Time.digitChar (n / 10), Time.digitChar n] := by
        rw [Time.digits, if_neg h10, Time.digits_lt_ten 18 (n / 10) (by omega)]
        rfl
      rw [h2, Time.digitChar_zero_of_lt h100,
        Time.digitChar_zero_of_lt (show n < 1000 by omega)]
      rfl
    · by_cases h1000 : n < 1000
      · have h2 : Time.digits 20 n =
            [Time.digitChar (n / 100), Time.digitChar (n / 10), Time.digitChar n] := by
          have e : n / 10 / 10 = n / 100 := by omega
          rw [Time.digits, if_neg h10, Time.digits, if_neg (by omega),
            Time.digits_lt_ten 17 (n / 10 / 10) (by omega), e]
          rfl
        rw [h2, Time.digitChar_zero_of_lt h1000]
        rfl
      · have h2 : Time.digits 20 n = [Time.digitChar (n / 1000), Time.digitChar (n / 100),
            Time.digitChar (n / 10), Time.digitChar n] := by
          have e : n / 10 / 10 = n / 100 := by omega
          have e2 : n / 10 / 10 / 10 = n / 1000 := by omega
          rw [Time.digits, if_neg h10, Time.digits, if_neg (by omega), Time.digits,
            if_neg (by omega), Time.digits_lt_ten 16 (n / 10 / 10 / 10) (by omega), e2, e]
          rfl
        rw [h2]
        rfl

theorem matchesLayout_layoutString (Y M D h m s : Nat) :
    matchesLayout (layoutString Y M D h m s) = true := by
  simp [matchesLayout, layoutString, (Time.digitChar_props _).1]

theorem Time.yday_of_date_lt (y : Int) (M D : Nat) (hM1 : 1 ≤ M) (hM : M ≤ 12)
    (hD1 : 1 ≤ D) (hD : (D : Int) ≤ Time.daysIn M y) :
    0 ≤ Time.daysBefore (M - 1) + (if Time.isLeap y = true ∧ M ≥ 3 then 1 else 0) +
      ((D : Int) - 1) ∧
    Time.daysBefore (M - 1) + (if Time.isLeap y = true ∧ M ≥ 3 then 1 else 0) +
      ((D : Int) - 1) < 365 + (if Time.isLeap y = true then 1 else 0) := by
  unfold Time.daysIn at hD
  by_cases hl : Time.isLeap y = true
  · simp only [hl, and_true, true_and, if_true] at hD ⊢
    interval_cases M <;> simp [Time.daysBefore] at hD ⊢ <;> omega
  · have hl2 : Time.isLeap y = false := by simpa using hl
    simp only [hl2, Bool.false_eq_true, and_false, false_and, if_false] at hD ⊢
    interval_cases M <;> simp [Time.daysBefore] at hD ⊢ <;> omega

/-- The text written for the time that `Date` makes of a valid date and time of day is the
layout string of the same fields. -/
theorem Time.formatAbs_Date (Y M D h m s : Nat) (hY : Y < 10000) (hM1 : 1 ≤ M) (hM : M ≤ 12)
    (hD1 : 1 ≤ D) (hD : (D : Int) ≤ Time.daysIn M Y) (hh : h < 24) (hm : m < 60)
    (hs : s < 60) :
    Time.formatAbs (Time.Date Y M D h m s 0).ext = layoutString Y M D h m s := by
  have hk := Time.yday_of_date_lt Y M D hM1 hM hD1 hD
  have hyd := Time.yearDay_daysSinceEpoch Y _ hk.1 hk.2
  have hmd := Time.monthDay_of_date Y M D hM1 hM hD1 hD
  have hD31 := Time.daysIn_le M Y
  have e1 : (Time.Date Y M D h m s 0).ext / 86400 = Time.daysSinceEpoch Y +
      (Time.daysBefore (M - 1) + (if Time.isLeap (Y : Int) = true ∧ M ≥ 3 then 1 else 0) +
        ((D : Int) - 1)) := by
    simp only [Time.Date]
    omega
  have e2 : (Time.Date Y M D h m s 0).ext % 86400 = (h : Int) * 3600 + m * 60 + s := by
    simp only [Time.Date]
    omega
  have e3 : ((h : Int) * 3600 + m * 60 + s) / 3600 = (h : Int) := by omega
  have e4 : ((h : Int) * 3600 + m * 60 + s) % 3600 / 60 = (m : Int) := by omega
  have e5 : ((h : Int) * 3600 + m * 60 + s) % 60 = (s : Int) := by omega
  simp only [Time.formatAbs, e1, e2, hyd, hmd, e3, e4, e5]
  rw [Time.appendInt_four Y hY, Time.appendInt_two M (by omega), Time.appendInt_two D (by omega),
    Time.appendInt_two h (by omega), Time.appendInt_two m (by omega),
    Time.appendInt_two s (by omega)]
  rfl

/-- The fields that `Format` writes for a wall clock in a year from 0 to 9999 are a valid
date and time of day, and `Date` makes the same seconds of them. -/
theorem Time.exists_date_of_abs (a : Int) (h0 : 0 ≤ (Time.yearDay (a / 86400)).1)
    (h1 : (Time.yearDay (a / 86400)).1 ≤ 9999) :
    ∃ Y M D h m s : Nat, Y < 10000 ∧ 1 ≤ M ∧ M ≤ 12 ∧ 1 ≤ D ∧ (D : Int) ≤ Time.daysIn M Y ∧
      h < 24 ∧ m < 60 ∧ s < 60 ∧ Time.Date Y M D h m s 0 = ⟨0, a, none⟩ := by
  obtain ⟨hd, hk0, hk1⟩ := Time.daysSinceEpoch_yearDay (a / 86400)
  generalize hyk : Time.yearDay (a / 86400) = yk at hd hk0 hk1 h0 h1
  obtain ⟨y, k⟩ := yk
  simp only [] at hd hk0 hk1 h0 h1
  obtain ⟨hM1, hM, hD1, hD, hyd⟩ := Time.date_of_monthDay y k hk0 hk1
  generalize Time.monthDay (Time.isLeap y) k = md at hM1 hM hD1 hD hyd
  obtain ⟨M, D⟩ := md
  simp only [] at hM1 hM hD1 hD hyd
  obtain ⟨Y, rfl⟩ : ∃ Y : Nat, y = (Y : Int) := ⟨y.toNat, by omega⟩
  obtain ⟨D', rfl⟩ : ∃ D' : Nat, D = (D' : Int) := ⟨D.toNat, by omega⟩
  refine ⟨Y, M, D', (a % 86400 / 3600).toNat, (a % 86400 % 3600 / 60).toNat,
    (a % 86400 % 60).toNat, by omega, hM1, hM, by omega, hD, by omega, by omega, by omega, ?_⟩
  simp only [Time.Date, Time.mk.injEq, and_true, true_and]
  generalize (if Time.isLeap (Y : Int) = true ∧ M ≥ 3 then (1 : Int) else 0) = adj at hyd ⊢
  generalize Time.daysBefore (M - 1) = db at hyd ⊢
  generalize Time.daysSinceEpoch (Y : Int) = dse at hd ⊢
  have e1 : (((a % 86400 / 3600).toNat : Nat) : Int) = a % 86400 / 3600 := by omega
  have e2 : (((a % 86400 % 3600 / 60).toNat : Nat) : Int) = a % 86400 % 3600 / 60 := by omega
  have e3 : (((a % 86400 % 60).toNat : Nat) : Int) = a % 86400 % 60 := by omega
  rw [e1, e2, e3]
  omega

/-- What `Format` writes for a wall clock in a year from 0 to 9999 matches the layout
exactly, and `Parse` reads it back as the same second in UTC. -/
theorem Time.Parse_formatAbs (a : Int) (h0 : 0 ≤ (Time.yearDay (a / 86400)).1)
    (h1 : (Time.yearDay (a / 86400)).1 ≤ 9999) :
    matchesLayout (Time.formatAbs a) = true ∧
    Time.Parse (Time.formatAbs a) = (⟨0, a, none⟩, none) := by
  obtain ⟨Y, M, D, h, m, s, hY, hM1, hM, hD1, hD, hh, hm, hs, hdate⟩ :=
    Time.exists_date_of_abs a h0 h1
  have hD31 := Time.daysIn_le M Y
  have hf := Time.formatAbs_Date Y M D h m s hY hM1 hM hD1 hD hh hm hs
  rw [hdate] at hf
  simp only [] at hf
  rw [hf, Time.Parse_layoutString Y M D h m s hY hM1 hM hD1 hD (by omega) hh hm hs, hdate]
  exact ⟨matchesLayout_layoutString Y M D h m s, rfl⟩

/-! ## The claims on the codec -/

theorem MarshalJSONTimeAsString_of_supported (zone : Nat → Int → Int) (r : Report)
    (h : hasUnsupportedScore.list r.Vulnerabilities = false) :
    ∃ d, r.MarshalJSONTimeAsString zone = (some d, none) := by
  simp [Report.MarshalJSONTimeAsString, jsonMarshal, h]

theorem Time.Parse_Format (zone : Nat → Int → Int) (t : Time)
    (h0 : 0 ≤ t.Year zone) (h1 : t.Year zone ≤ 9999) :
    matchesLayout (t.Format zone) = true ∧
    Time.Parse (t.Format zone) = (⟨0, t.abs zone, none⟩, none) :=
  Time.Parse_formatAbs (t.abs zone) h0 h1

/-- C16, as amended: for every report none of whose Scores, at any nesting level, is NaN
or infinite, `MarshalJSONTimeAsString` succeeds; whenever it succeeds, the "start_time"
(respectively "end_time") member of its output is the string that `Format` writes for
StartTime (respectively EndTime), and for a timestamp other than the zero timestamp whose
year, in its location, is from 0 to 9999, this string matches the pattern
YYYY-MM-DD hh:mm:ss exactly and stands for the second that a wall clock in the location
of the timestamp shows, the fraction of a second being dropped. -/
theorem MarshalJSONTimeAsString_times (zone : Nat → Int → Int) (r : Report) :
    (hasUnsupportedScore.list r.Vulnerabilities = false →
      ∃ d, r.MarshalJSONTimeAsString zone = (some d, none)) ∧
    (∀ d, (r.MarshalJSONTimeAsString zone).1 = some d →
      d.start_time = r.StartTime.Format zone ∧ d.end_time = r.EndTime.Format zone ∧
      (r.StartTime ≠ Time.zero → 0 ≤ r.StartTime.Year zone → r.StartTime.Year zone ≤ 9999 →
        matchesLayout d.start_time = true ∧
        Time.Parse d.start_time = (⟨0, r.StartTime.abs zone, none⟩, none)) ∧
      (r.EndTime ≠ Time.zero → 0 ≤ r.EndTime.Year zone → r.EndTime.Year zone ≤ 9999 →
        matchesLayout d.end_time = true ∧
        Time.Parse d.end_time = (⟨0, r.EndTime.abs zone, none⟩, none))) := by
  refine ⟨MarshalJSONTimeAsString_of_supported zone r, ?_⟩
  intro d hd
  obtain ⟨_, hs, he, _⟩ := MarshalJSONTimeAsString_eq_some zone r d hd
  refine ⟨hs, he, ?_, ?_⟩
  · intro _ h0 h1
    rw [hs]
    exact Time.Parse_Format zone r.StartTime h0 h1
  · intro _ h0 h1
    rw [he]
    exact Time.Parse_Format zone r.EndTime h0 h1

/-- The report `cd0` of the tests with a start time of 2021-05-18 13:30:15.999999999 UTC
that carries a monotonic reading: the member is "2021-05-18 13:30:15". -/
theorem MarshalJSONTimeAsString_times_witness :
    hasUnsupportedScore.list (reportWith "ID0" "CT0" "CTV0" "example.com" "FINISHED"
      ⟨2 ^ 63 + 2 ^ 30 * 4303632615 + 999999999, 77, none⟩
      [vulnerabilityWith "a" SeverityThresholdLow []]).Vulnerabilities = false ∧
    (((reportWith "ID0" "CT0" "CTV0" "example.com" "FINISHED"
      ⟨2 ^ 63 + 2 ^ 30 * 4303632615 + 999999999, 77, none⟩
      [vulnerabilityWith "a" SeverityThresholdLow []]).MarshalJSONTimeAsString
        fun _ _ => 0).1.map fun d => d.start_time) = some "2021-05-18 13:30:15" ∧
    ∃ d, (reportWith "ID0" "CT0" "CTV0" "example.com" "FINISHED"
      ⟨2 ^ 63 + 2 ^ 30 * 4303632615 + 999999999, 77, none⟩
      [vulnerabilityWith "a" SeverityThresholdLow []]).MarshalJSONTimeAsString
        (fun _ _ => 0) = (some d, none) :=
  ⟨by decide, by decide,
    (MarshalJSONTimeAsString_times (fun _ _ => 0) (reportWith "ID0" "CT0" "CTV0"
      "example.com" "FINISHED" ⟨2 ^ 63 + 2 ^ 30 * 4303632615 + 999999999, 77, none⟩
      [vulnerabilityWith "a" SeverityThresholdLow []])).1 (by decide)⟩

/-- C16, counterexample: a report with a vulnerability whose score is a NaN is refused by
`json.Marshal`, so that `MarshalJSONTimeAsString` returns an error; and for a start time
in the year 10000 the member "start_time" is "10000-01-01 00:00:00", which does not match
the pattern. -/
theorem MarshalJSONTimeAsString_times_counterexample :
    ¬ (((reportWith "ID0" "CT0" "CTV0" "example.com" "FINISHED" ⟨0, 63756941415, none⟩
        [vulnerabilityWith "a" ⟨false, 255, 4194304⟩ []]).MarshalJSONTimeAsString
          fun _ _ => 0).2 = none) ∧
    ¬ ((((reportWith "ID0" "CT0" "CTV0" "example.com" "FINISHED" ⟨0, 315537897600, none⟩
        []).MarshalJSONTimeAsString fun _ _ => 0).1.map fun d =>
          matchesLayout d.start_time) = some true) := by
  constructor <;> decide

/-- C19, as amended: for every well-formed input, `UnmarshalJSONTimeAsString` returns an
error if and only if "start_time" or "end_time" is present as a non-empty string that
`time.Parse` does not accept for the layout `2006-01-02 15:04:05`. Every string that
matches the pattern YYYY-MM-DD hh:mm:ss exactly, with a month from 1 to 12, a day of that
month, an hour below 24 and a minute and a second below 60, is accepted; a string with an
RFC 3339 'T' separator or with a timezone is rejected; but the parse is not strict: a
string with a fractional-second suffix, with a one-digit hour or with several spaces
before the hour is accepted. -/
theorem UnmarshalJSONTimeAsString_error_iff (r : Report) (data : Input)
    (hwf : data.err = none) :
    ((r.UnmarshalJSONTimeAsString data).2 ≠ none ↔
      (data.start_time.getD "" ≠ "" ∧ (Time.Parse (data.start_time.getD "")).2 ≠ none) ∨
      (data.end_time.getD "" ≠ "" ∧ (Time.Parse (data.end_time.getD "")).2 ≠ none)) ∧
    (∀ Y M D h m s : Nat, Y < 10000 → 1 ≤ M → M ≤ 12 → 1 ≤ D → (D : Int) ≤ Time.daysIn M Y →
      h < 24 → m < 60 → s < 60 →
      matchesLayout (layoutString Y M D h m s) = true ∧
      (Time.Parse (layoutString Y M D h m s)).2 = none) ∧
    (Time.Parse "2021-05-18T13:30:15").2 ≠ none ∧
    (Time.Parse "2021-05-18 13:30:15Z").2 ≠ none ∧
    (Time.Parse "2021-05-18 13:30:15+02:00").2 ≠ none ∧
    (Time.Parse "2021-05-18 13:30:15.5").2 = none ∧
    (Time.Parse "2021-05-18 3:30:15").2 = none ∧
    (Time.Parse "2021-05-18  13:30:15").2 = none := by
  refine ⟨?_, ?_, by decide, by decide, by decide, by decide, by decide, by decide⟩
  · rw [UnmarshalJSONTimeAsString_error r data hwf]
    by_cases hs : data.start_time.getD "" ≠ "" ∧
        (Time.Parse (data.start_time.getD "")).2 ≠ none
    · rw [if_pos hs]
      exact ⟨fun _ => Or.inl hs, fun _ => hs.2⟩
    · rw [if_neg hs]
      by_cases he : data.end_time.getD "" ≠ ""
      · rw [if_pos he]
        constructor
        · intro h
          exact Or.inr ⟨he, h⟩
        · rintro (h | h)
          · exact absurd h hs
          · exact h.2
      · rw [if_neg he]
        constructor
        · intro h
          exact absurd rfl h
        · rintro (h | h)
          · exact absurd h hs
          · exact absurd h.1 he
  · intro Y M D h m s hY hM1 hM hD1 hD hh hm hs
    have hD31 := Time.daysIn_le M Y
    refine ⟨matchesLayout_layoutString Y M D h m s, ?_⟩
    rw [Time.Parse_layoutString Y M D h m s hY hM1 hM hD1 hD (by omega) hh hm hs]

/-- A well-formed input with a start time that has a fraction of a second and an end time
with a 'T' separator: the error is the one of the end time. -/
theorem UnmarshalJSONTimeAsString_error_iff_witness :
    (Report.fresh.UnmarshalJSONTimeAsString (inputWithTimes (some "2021-05-18 13:30:15.5")
      (some "2021-05-18T14:00:50"))).2 ≠ none ∧
    (Time.Parse "2021-05-18 13:30:15.5").2 = none ∧
    (Time.Parse "2021-05-18T14:00:50").2 ≠ none :=
  ⟨((UnmarshalJSONTimeAsString_error_iff Report.fresh (inputWithTimes
      (some "2021-05-18 13:30:15.5") (some "2021-05-18T14:00:50")) rfl).1).mpr
      (Or.inr ⟨by decide, by decide⟩), by decide, by decide⟩

/-- C19, counterexample: the well-formed input whose "start_time" is
"2021-05-18 13:30:15.5", which does not match the pattern YYYY-MM-DD hh:mm:ss, and which
has no "end_time": no error is returned, and StartTime is set with a fraction of half a
second. -/
theorem UnmarshalJSONTimeAsString_error_iff_counterexample :
    ¬ ((Report.fresh.UnmarshalJSONTimeAsString
          (inputWithTimes (some "2021-05-18 13:30:15.5") none)).2 ≠ none ↔
        ((some "2021-05-18 13:30:15.5" : Option String).getD "" ≠ "" ∧
          matchesLayout ((some "2021-05-18 13:30:15.5" : Option String).getD "") = false) ∨
        ((none : Option String).getD "" ≠ "" ∧
          matchesLayout ((none : Option String).getD "") = false)) ∧
    (Report.fresh.UnmarshalJSONTimeAsString
      (inputWithTimes (some "2021-05-18 13:30:15.5") none)).1.StartTime =
      ⟨500000000, 63756941415, none⟩ := by
  constructor <;> decide

theorem Report.eq_of_fields (a b : Report) (h1 : a.CheckID = b.CheckID)
    (h2 : a.ChecktypeName = b.ChecktypeName) (h3 : a.ChecktypeVersion = b.ChecktypeVersion)
    (h4 : a.Status = b.Status) (h5 : a.Target = b.Target) (h6 : a.Options = b.Options)
    (h7 : a.Tag = b.Tag) (h8 : a.StartTime = b.StartTime) (h9 : a.EndTime = b.EndTime)
    (h10 : a.Vulnerabilities = b.Vulnerabilities) (h11 : a.Data = b.Data)
    (h12 : a.Notes = b.Notes) (h13 : a.Error = b.Error)
    (h14 : a.NotApplicable = b.NotApplicable) : a = b := by
  obtain ⟨⟨_, _, _, _, _, _, _, _, _⟩, ⟨_, _, _, _, _⟩⟩ := a
  obtain ⟨⟨_, _, _, _, _, _, _, _, _⟩, ⟨_, _, _, _, _⟩⟩ := b
  simp only at h1 h2 h3 h4 h5 h6 h7 h8 h9 h10 h11 h12 h13 h14
  subst h1 h2 h3 h4 h5 h6 h7 h8 h9 h10 h11 h12 h13 h14
  rfl

/-! ## UnmarshalJSONTimeAsString: the receiver after an error -/

theorem UnmarshalJSONTimeAsString_of_err (r : Report) (data : Input) (e : String)
    (h : data.err = some e) :
    r.UnmarshalJSONTimeAsString data =
      ({ data.members r with StartTime := r.StartTime, EndTime := r.EndTime }, some e) := by
  unfold Report.UnmarshalJSONTimeAsString
  simp only [h]

/-- C21, as amended: when `UnmarshalJSONTimeAsString` returns an error the receiver can
hold a partial result. EndTime holds the value that it held before the call. StartTime
holds the value that it held before the call, unless the input is well-formed and its
"start_time" is a non-empty string that `time.Parse` accepts: then the error is the one of
parsing "end_time" and StartTime is already the start time parsed. Every other field holds
what `json.Unmarshal` stored in it before the error was returned. When `json.Unmarshal`
stored nothing and no start time was parsed, the receiver is as it was before the call. -/
theorem UnmarshalJSONTimeAsString_state_on_error (r : Report) (data : Input)
    (herr : (r.UnmarshalJSONTimeAsString data).2 ≠ none) :
    (r.UnmarshalJSONTimeAsString data).1.EndTime = r.EndTime ∧
    ((data.err = none ∧ data.start_time.getD "" ≠ "" ∧
        (Time.Parse (data.start_time.getD "")).2 = none) →
      (r.UnmarshalJSONTimeAsString data).1.StartTime =
        (Time.Parse (data.start_time.getD "")).1 ∧
      data.end_time.getD "" ≠ "" ∧
      (r.UnmarshalJSONTimeAsString data).2 = (Time.Parse (data.end_time.getD "")).2) ∧
    (¬ (data.err = none ∧ data.start_time.getD "" ≠ "" ∧
        (Time.Parse (data.start_time.getD "")).2 = none) →
      (r.UnmarshalJSONTimeAsString data).1.StartTime = r.StartTime) ∧
    ((r.UnmarshalJSONTimeAsString data).1.CheckID = (data.members r).CheckID ∧
      (r.UnmarshalJSONTimeAsString data).1.ChecktypeName = (data.members r).ChecktypeName ∧
      (r.UnmarshalJSONTimeAsString data).1.ChecktypeVersion =
        (data.members r).ChecktypeVersion ∧
      (r.UnmarshalJSONTimeAsString data).1.Status = (data.members r).Status ∧
      (r.UnmarshalJSONTimeAsString data).1.Target = (data.members r).Target ∧
      (r.UnmarshalJSONTimeAsString data).1.Options = (data.members r).Options ∧
      (r.UnmarshalJSONTimeAsString data).1.Tag = (data.members r).Tag ∧
      (r.UnmarshalJSONTimeAsString data).1.Vulnerabilities =
        (data.members r).Vulnerabilities ∧
      (r.UnmarshalJSONTimeAsString data).1.Data = (data.members r).Data ∧
      (r.UnmarshalJSONTimeAsString data).1.Notes = (data.members r).Notes ∧
      (r.UnmarshalJSONTimeAsString data).1.Error = (data.members r).Error ∧
      (r.UnmarshalJSONTimeAsString data).1.NotApplicable =
        (data.members r).NotApplicable) ∧
    (data.members r = r →
      ¬ (data.err = none ∧ data.start_time.getD "" ≠ "" ∧
        (Time.Parse (data.start_time.getD "")).2 = none) →
      (r.UnmarshalJSONTimeAsString data).1 = r) := by
  have hother := UnmarshalJSONTimeAsString_other_fields r data
  have hend : (r.UnmarshalJSONTimeAsString data).1.EndTime = r.EndTime := by
    rcases hde : data.err with _ | e
    · rw [UnmarshalJSONTimeAsString_EndTime r data hde]
      rw [UnmarshalJSONTimeAsString_error r data hde] at herr
      by_cases hs : data.start_time.getD "" ≠ "" ∧
          (Time.Parse (data.start_time.getD "")).2 ≠ none
      · rw [if_neg]
        rintro ⟨h1 | h1, _⟩
        · exact hs.1 h1
        · exact hs.2 h1
      · rw [if_neg hs] at herr
        by_cases he : data.end_time.getD "" ≠ ""
        · rw [if_pos he] at herr
          rw [if_neg]
          rintro ⟨_, _, h2⟩
          exact herr h2
        · rw [if_neg he] at herr
          exact absurd rfl herr
    · rw [UnmarshalJSONTimeAsString_of_err r data e hde]
  have hstart : ¬ (data.err = none ∧ data.start_time.getD "" ≠ "" ∧
        (Time.Parse (data.start_time.getD "")).2 = none) →
      (r.UnmarshalJSONTimeAsString data).1.StartTime = r.StartTime := by
    intro hn
    rcases hde : data.err with _ | e
    · rw [UnmarshalJSONTimeAsString_StartTime r data hde, if_neg]
      exact fun h => hn ⟨hde, h⟩
    · rw [UnmarshalJSONTimeAsString_of_err r data e hde]
  refine ⟨hend, ?_, hstart, hother, ?_⟩
  · rintro ⟨hwf, hs, hp⟩
    rw [UnmarshalJSONTimeAsString_error r data hwf] at herr
    have hns : ¬ (data.start_time.getD "" ≠ "" ∧
        (Time.Parse (data.start_time.getD "")).2 ≠ none) := fun h => h.2 hp
    rw [if_neg hns] at herr
    have he : data.end_time.getD "" ≠ "" := by
      intro he
      rw [if_neg (fun h => h he)] at herr
      exact herr rfl
    refine ⟨?_, he, ?_⟩
    · rw [UnmarshalJSONTimeAsString_StartTime r data hwf, if_pos ⟨hs, hp⟩]
    · rw [UnmarshalJSONTimeAsString_error r data hwf, if_neg hns, if_pos he]
  · intro hm hn
    obtain ⟨g1, g2, g3, g4, g5, g6, g7, g8, g9, g10, g11, g12⟩ := hother
    rw [hm] at g1 g2 g3 g4 g5 g6 g7 g8 g9 g10 g11 g12
    exact Report.eq_of_fields _ _ g1 g2 g3 g4 g5 g6 g7 (hstart hn) hend g8 g9 g10 g11 g12

/-- A fresh report reads a well-formed input whose "start_time" is valid and whose
"end_time" has a 'T' separator: an error is returned, EndTime is still the zero timestamp
and StartTime is 2021-05-18 13:30:15 UTC. -/
theorem UnmarshalJSONTimeAsString_state_on_error_witness :
    (Report.fresh.UnmarshalJSONTimeAsString (inputWithTimes (some "2021-05-18 13:30:15")
      (some "2021-05-18T14:00:50"))).2 ≠ none ∧
    (Report.fresh.UnmarshalJSONTimeAsString (inputWithTimes (some "2021-05-18 13:30:15")
      (some "2021-05-18T14:00:50"))).1.EndTime = Time.zero ∧
    (Report.fresh.UnmarshalJSONTimeAsString (inputWithTimes (some "2021-05-18 13:30:15")
      (some "2021-05-18T14:00:50"))).1.StartTime = ⟨0, 63756941415, none⟩ :=
  ⟨by decide,
    (UnmarshalJSONTimeAsString_state_on_error Report.fresh (inputWithTimes
      (some "2021-05-18 13:30:15") (some "2021-05-18T14:00:50")) (by decide)).1,
    by decide⟩

/-- C21, counterexample: a fresh report reads a well-formed input whose "start_time" is
"2021-05-18 13:30:15" and whose "end_time", "2021-05-18T14:00:50", does not match the
pattern. An error is returned, and the StartTime of the receiver is no longer the zero
timestamp that it held before the call. -/
theorem UnmarshalJSONTimeAsString_state_on_error_counterexample :
    ¬ ((Report.fresh.UnmarshalJSONTimeAsString (inputWithTimes (some "2021-05-18 13:30:15")
        (some "2021-05-18T14:00:50"))).2 ≠ none →
      (Report.fresh.UnmarshalJSONTimeAsString (inputWithTimes (some "2021-05-18 13:30:15")
        (some "2021-05-18T14:00:50"))).1.StartTime = Report.fresh.StartTime) := by
  decide

/-! ## Vulnerability.AggregateScore: what the call leaves unchanged -/

theorem Vulnerability.AggregateScore_Vulnerabilities_perm (S : SortAlgorithm)
    (v : Vulnerability) : (v.AggregateScore S).Vulnerabilities.Perm v.Vulnerabilities := by
  by_cases h : v.Vulnerabilities = []
  · rw [Vulnerability.AggregateScore_eq_of_no_children S v h]
  · rw [(Vulnerability.AggregateScore_eq_of_children S v h).2]
    exact AggregateScore_snd_perm S v.Vulnerabilities

theorem Vulnerability.AggregateScore_Summary (S : SortAlgorithm) (v : Vulnerability) :
    (v.AggregateScore S).Summary = v.Summary := by
  unfold Vulnerability.AggregateScore
  split_ifs <;> rfl

/-- C22: `Vulnerability.AggregateScore` changes at most the `Score` and the order of the
children: after the call the `Vulnerabilities` of the receiver are a permutation of its
`Vulnerabilities` before the call (the same values with the same multiplicities, so that
each child is unmodified), and every field other than `Score` and `Vulnerabilities` is
unchanged. This holds for every sort that only swaps elements, as `sort.Sort` does. -/
theorem Vulnerability_AggregateScore_frame (S : SortAlgorithm) (v : Vulnerability) :
    (v.AggregateScore S).Vulnerabilities.Perm v.Vulnerabilities ∧
    (v.AggregateScore S).ID = v.ID ∧
    (v.AggregateScore S).Summary = v.Summary ∧
    (v.AggregateScore S).CWEID = v.CWEID ∧
    (v.AggregateScore S).Description = v.Description ∧
    (v.AggregateScore S).Details = v.Details ∧
    (v.AggregateScore S).ImpactDetails = v.ImpactDetails ∧
    (v.AggregateScore S).Recommendations = v.Recommendations ∧
    (v.AggregateScore S).References = v.References ∧
    (v.AggregateScore S).Resources = v.Resources ∧
    (v.AggregateScore S).Attachments = v.Attachments := by
  refine ⟨Vulnerability.AggregateScore_Vulnerabilities_perm S v, ?_⟩
  unfold Vulnerability.AggregateScore
  split_ifs
  · exact ⟨rfl, rfl, rfl, rfl, rfl, rfl, rfl, rfl, rfl, rfl⟩
  · exact ⟨rfl, rfl, rfl, rfl, rfl, rfl, rfl, rfl, rfl, rfl⟩

/-- C23: `Vulnerability.AggregateScore` preserves validity: `ValidateVulnerability`
succeeds on the receiver after the call if and only if it succeeded on it before the
call, for every sort that only swaps elements. The message of the error may differ: for
the group whose first child, of score 3.9, has a child and whose second child, of score
8.9, has no summary, the error is the one of the nesting rule before the call and the one
of the missing summary after it. -/
theorem Vulnerability_AggregateScore_preserves_validity :
    (∀ (S : SortAlgorithm) (v : Vulnerability),
      ValidateVulnerability (v.AggregateScore S) = none ↔ ValidateVulnerability v = none) ∧
    ValidateVulnerability (vulnerabilityWith "p" Float32.zero
      [vulnerabilityWith "a" SeverityThresholdLow [vulnerabilityWith "c" Float32.zero []],
       vulnerabilityWith "" SeverityThresholdHigh []]) =
      some "child vulnerabilities are not allowed to have children" ∧
    ValidateVulnerability ((vulnerabilityWith "p" Float32.zero
      [vulnerabilityWith "a" SeverityThresholdLow [vulnerabilityWith "c" Float32.zero []],
       vulnerabilityWith "" SeverityThresholdHigh []]).AggregateScore goInsertionSort) =
      some "vulnerability group is missing summary" := by
  refine ⟨?_, by decide, by decide⟩
  intro S v
  have hp := Vulnerability.AggregateScore_Vulnerabilities_perm S v
  rw [ValidateVulnerability_eq, ValidateVulnerability_eq v,
    Vulnerability.AggregateScore_Summary]
  by_cases hs : v.Summary = ""
  · rw [if_pos hs, if_pos hs]
  · rw [if_neg hs, if_neg hs, ValidateVulnerability.loop_eq_none_iff,
      ValidateVulnerability.loop_eq_none_iff]
    exact ⟨fun h c hc => h c (hp.mem_iff.mpr hc), fun h c hc => h c (hp.mem_iff.mp hc)⟩

/-! ## RankSeverity is monotone -/

theorem Float32.le_eq_decide {x y : Float32} (hx : x.isNaN = false) (hy : y.isNaN = false) :
    x.le y = decide (x.key ≤ y.key) := by
  simp [Float32.le, hx, hy]

/-- On a score that is not NaN, `RankSeverity` is a step function of the key. -/
theorem RankSeverity_of_not_nan {s : Float32} (h : s.isNaN = false) :
    RankSeverity s =
      if s.key ≤ 0 then SeverityNone
      else if s.key ≤ 1081711002 then SeverityLow
      else if s.key ≤ 1088212173 then SeverityMedium
      else if s.key ≤ 1091462758 then SeverityHigh
      else SeverityCritical := by
  rw [RankSeverity, Float32.le_eq_decide h (by decide), Float32.le_eq_decide h (by decide),
    Float32.le_eq_decide h (by decide), Float32.le_eq_decide h (by decide),
    SeverityThresholdNone_key, SeverityThresholdLow_key, SeverityThresholdMedium_key,
    SeverityThresholdHigh_key]
  simp only [decide_eq_true_eq]

theorem RankSeverity_le_of_le {s1 s2 : Float32} (h : s1.le s2 = true) :
    RankSeverity s1 ≤ RankSeverity s2 := by
  rw [Float32.le_iff] at h
  obtain ⟨h1, h2, hk⟩ := h
  rw [RankSeverity_of_not_nan h1, RankSeverity_of_not_nan h2]
  simp only [SeverityNone, SeverityLow, SeverityMedium, SeverityHigh, SeverityCritical]
  split_ifs <;> first | decide | omega

/-- C24, as amended: `RankSeverity` is monotone: for all scores with `s1 <= s2`, the
comparison of `float32`, `RankSeverity s1 <= RankSeverity s2` in the order
None < Low < Medium < High < Critical. Consequently, for a group with one or more direct
children none of which has a NaN `Score`, after `Vulnerability.AggregateScore` the
`Severity` of the group is the highest severity rank among its direct children: it is the
rank of one of them and no child has a higher rank. -/
theorem RankSeverity_monotone (S : SortAlgorithm) (v : Vulnerability) :
    (∀ s1 s2 : Float32, s1.le s2 = true → RankSeverity s1 ≤ RankSeverity s2) ∧
    (v.Vulnerabilities ≠ [] → (∀ c ∈ v.Vulnerabilities, c.Score.isNaN = false) →
      (∃ c ∈ (v.AggregateScore S).Vulnerabilities,
        (v.AggregateScore S).Severity = c.Severity) ∧
      ∀ c ∈ (v.AggregateScore S).Vulnerabilities,
        c.Severity ≤ (v.AggregateScore S).Severity) := by
  refine ⟨fun s1 s2 h => RankSeverity_le_of_le h, ?_⟩
  intro hne hnan
  have hp := Vulnerability.AggregateScore_Vulnerabilities_perm S v
  have hsc := (Vulnerability.AggregateScore_eq_of_children S v hne).1
  constructor
  · obtain ⟨c, hc, hcs⟩ := AggregateScore_fst_mem S hne
    refine ⟨c, hp.mem_iff.mpr hc, ?_⟩
    rw [Vulnerability.Severity, Vulnerability.Severity, hsc, hcs]
  · intro c hc
    have hc2 := hp.mem_iff.mp hc
    have hge := AggregateScore_fst_ge S hne hnan c hc2
    rw [Vulnerability.Severity, Vulnerability.Severity, hsc]
    exact RankSeverity_le_of_le hge

/-- The group of the test `MultipleVulnerabilitiesDifferentScores`, of children of scores
3.9, 6.9 and 8.9: after the call the severity of the group is SeverityHigh, the rank of
the third child, and no child ranks higher. -/
theorem RankSeverity_monotone_witness :
    (vulnerabilityWith "p" Float32.zero
      [vulnerabilityWith "a" SeverityThresholdLow [],
       vulnerabilityWith "b" SeverityThresholdMedium [],
       vulnerabilityWith "c" SeverityThresholdHigh []]).Vulnerabilities ≠ [] ∧
    (∀ c ∈ (vulnerabilityWith "p" Float32.zero
      [vulnerabilityWith "a" SeverityThresholdLow [],
       vulnerabilityWith "b" SeverityThresholdMedium [],
       vulnerabilityWith "c" SeverityThresholdHigh []]).Vulnerabilities,
      c.Score.isNaN = false) ∧
    ((vulnerabilityWith "p" Float32.zero
      [vulnerabilityWith "a" SeverityThresholdLow [],
       vulnerabilityWith "b" SeverityThresholdMedium [],
       vulnerabilityWith "c" SeverityThresholdHigh []]).AggregateScore
        goInsertionSort).Severity = SeverityHigh ∧
    ∀ c ∈ ((vulnerabilityWith "p" Float32.zero
      [vulnerabilityWith "a" SeverityThresholdLow [],
       vulnerabilityWith "b" SeverityThresholdMedium [],
       vulnerabilityWith "c" SeverityThresholdHigh []]).AggregateScore
        goInsertionSort).Vulnerabilities,
      c.Severity ≤ ((vulnerabilityWith "p" Float32.zero
        [vulnerabilityWith "a" SeverityThresholdLow [],
         vulnerabilityWith "b" SeverityThresholdMedium [],
         vulnerabilityWith "c" SeverityThresholdHigh []]).AggregateScore
          goInsertionSort).Severity :=
  ⟨List.cons_ne_nil _ _, by decide, by decide,
    ((RankSeverity_monotone goInsertionSort _).2 (List.cons_ne_nil _ _) (by decide)).2⟩

/-- C24, counterexample: a group whose children have the scores 3.9 and NaN (bits
`0x7FC00000`), in this order. No comparison with the NaN is true, so that the sort leaves
the children in place and the score of the group is 3.9, of rank SeverityLow; the second
child ranks SeverityCritical, since a NaN is below no threshold. -/
theorem RankSeverity_monotone_counterexample :
    ¬ (∀ c ∈ ((vulnerabilityWith "p" Float32.zero
        [vulnerabilityWith "a" SeverityThresholdLow [],
         vulnerabilityWith "b" ⟨false, 255, 4194304⟩ []]).AggregateScore
          goInsertionSort).Vulnerabilities,
        c.Severity ≤ ((vulnerabilityWith "p" Float32.zero
          [vulnerabilityWith "a" SeverityThresholdLow [],
           vulnerabilityWith "b" ⟨false, 255, 4194304⟩ []]).AggregateScore
            goInsertionSort).Severity) := by
  decide

/-! ## Which strings in the pattern `time.Parse` accepts -/

end VulcanReport
